import Mathlib

/-!
# Verification of the tmxlib TMX codec (`tmxlib/fileio.py`)

Shallow embedding of the codec layer of `fileio.py`: the markup tree is a
generic node (tag, attribute map, ordered children, optional text), attribute
values carry the typed payloads that the Python code produces with
`str`/`int`/`float` (the decimal rendering itself belongs to the external
markup serializer), bytes are `Nat` lists with values below 256, and every
fallible path returns `Except Err`.  Python `assert`/`raise` sites are mapped
to the error kinds named by the documentation.

The external compression libraries (`zlib`, `gzip`) are collaborators, not
repository code: the pipeline is parameterised over their compress/decompress
functions, and a concrete reference instance (faithful to the gzip container
framing, with the DEFLATE body left as the identity) is used for witnesses.
-/

set_option maxHeartbeats 3000000
set_option maxRecDepth 4000

namespace Tmx

/-- Error kinds of the codec, one per Python `assert`/`raise` site, named after
the documentation's error taxonomy. -/
inductive Err where
  /-- structurally wrong node (wrong tag, malformed child composition) -/
  | formatErr (ctx : String)
  /-- `version` attribute not exactly `"1.0"` -/
  | versionErr
  /-- a required attribute is missing (`attrib.pop` with no default: `KeyError`) -/
  | missingAttr (key : String)
  /-- a required attribute fails numeric/type coercion (`int()`/`float()` raising) -/
  | badValue (key : String)
  /-- leftover attribute after consuming the recognized ones (`assert not ... .attrib`) -/
  | unexpectedAttr (ctx : String)
  /-- a child tag outside the recognized set (`assert False, 'Unknown tag ...'`) -/
  | unknownElement (tag : String)
  /-- a layer's declared size disagrees with the document (`assert layer_size == map.size`) -/
  | layerSizeMismatch
  /-- decoded tile data of the wrong length -/
  | dataLength
  /-- transport encoding outside the supported set -/
  | unsupportedEncoding
  /-- compression outside the supported set -/
  | unsupportedCompression
  /-- unresolvable external resource reference -/
  | pathErr
  /-- parsed `firstgid` disagrees with the computed first global tile ID
      (`assert tileset.first_gid(map) == tileset._read_first_gid`) -/
  | firstGidMismatch
  /-- a second `data` child of a tile layer (`assert data_set is False`),
      or no `data` child at all (`assert data_set`) -/
  | dataChildErr
  /-- a second `image` child of a tileset (`assert tileset.image == None`) -/
  | duplicateImage
  /-- malformed transport-encoded or compressed payload -/
  | payloadErr
  /-- `struct.pack` refusing an out-of-range tile id on the write path -/
  | packErr
  deriving DecidableEq, Repr

/-- A typed markup attribute value.  The Python code stores strings, `str(n)`
of integers and `str(x)` of floats into the (string-valued) attribute map and
parses them back with `int()`/`float()`; the decimal text itself is the
external markup layer's concern, so the embedding keeps the payloads typed and
models the coercions as partial projections. -/
inductive AVal where
  | s (v : String)
  | i (v : Int)
  | q (v : Rat)
  deriving DecidableEq, Repr

/-- Python `int(value)`: succeeds only on integer-shaped input. -/
def AVal.asInt : AVal → Option Int
  | .i v => some v
  | _ => none

/-- An attribute that the model (following the documentation's `uint` fields)
reads as a nonnegative integer. -/
def AVal.asNat : AVal → Option Nat
  | .i v => if 0 ≤ v then some v.toNat else none
  | _ => none

/-- Python `float(value)`: accepts floats and ints. -/
def AVal.asQ : AVal → Option Rat
  | .q v => some v
  | .i v => some (v : Rat)
  | _ => none

/-- An attribute used verbatim as a string (no coercion in the source). -/
def AVal.asStr : AVal → Option String
  | .s v => some v
  | _ => none

/-- Attribute map of a markup node: an association list (keys unique in any
tree produced by a markup parser). -/
abbrev Attrs := List (String × AVal)

/-- A generic markup node: tag, attribute map, ordered children, text. -/
inductive Node where
  | mk (tag : String) (attrs : Attrs) (children : List Node) (text : Option String)
  deriving Repr

def Node.tag : Node → String
  | .mk t _ _ _ => t

def Node.attrs : Node → Attrs
  | .mk _ a _ _ => a

def Node.children : Node → List Node
  | .mk _ _ c _ => c

def Node.text : Node → Option String
  | .mk _ _ _ x => x

mutual

def Node.beq : Node → Node → Bool
  | .mk t1 a1 c1 x1, .mk t2 a2 c2 x2 =>
    decide (t1 = t2) && decide (a1 = a2) && decide (x1 = x2) && beqNodeList c1 c2

def beqNodeList : List Node → List Node → Bool
  | [], [] => true
  | n :: ns, m :: ms => Node.beq n m && beqNodeList ns ms
  | _, _ => false

end

mutual

theorem Node.beq_iff : ∀ n m : Node, Node.beq n m = true ↔ n = m
  | .mk t1 a1 c1 x1, .mk t2 a2 c2 x2 => by
    simp only [Node.beq, Bool.and_eq_true, decide_eq_true_eq, Node.mk.injEq]
    rw [beqNodeList_iff c1 c2]
    tauto

theorem beqNodeList_iff : ∀ l1 l2 : List Node, beqNodeList l1 l2 = true ↔ l1 = l2
  | [], [] => by simp [beqNodeList]
  | n :: ns, m :: ms => by
    simp only [beqNodeList, Bool.and_eq_true, List.cons.injEq]
    rw [Node.beq_iff n m, beqNodeList_iff ns ms]
  | [], _ :: _ => by simp [beqNodeList]
  | _ :: _, [] => by simp [beqNodeList]

end

instance : DecidableEq Node := fun a b =>
  decidable_of_iff (Node.beq a b = true) (Node.beq_iff a b)

instance {ε α : Type} [DecidableEq ε] [DecidableEq α] : DecidableEq (Except ε α) :=
  fun a b =>
    match a, b with
    | .ok x, .ok y => decidable_of_iff (x = y) (by simp)
    | .error x, .error y => decidable_of_iff (x = y) (by simp)
    | .ok _, .error _ => isFalse (by simp)
    | .error _, .ok _ => isFalse (by simp)

/-- `elem.attrib.pop(key, default-or-raise)`: remove the first binding of
`key`, returning it (if any) and the remaining attributes. -/
def popAttr (key : String) : Attrs → Option AVal × Attrs
  | [] => (none, [])
  | (k, v) :: rest =>
    if k = key then (some v, rest)
    else
      let r := popAttr key rest
      (r.1, (k, v) :: r.2)

/-- `elem.attrib.pop(key)` with no default: missing key raises. -/
def popReq (key : String) (a : Attrs) : Except Err (AVal × Attrs) :=
  match popAttr key a with
  | (some v, rest) => .ok (v, rest)
  | (none, _) => .error (.missingAttr key)

/-- Required attribute coerced with `int()` and held to the documented
`uint` range. -/
def popNat (key : String) (a : Attrs) : Except Err (Nat × Attrs) := do
  let (v, rest) ← popReq key a
  match v.asNat with
  | some n => .ok (n, rest)
  | none => .error (.badValue key)

/-- Required attribute used as a raw string. -/
def popStr (key : String) (a : Attrs) : Except Err (String × Attrs) := do
  let (v, rest) ← popReq key a
  match v.asStr with
  | some s => .ok (s, rest)
  | none => .error (.badValue key)

/-! ## Property bag codec (`read_properties` / `append_properties`) -/

/-- A string→string property bag, as the association list underlying the
Python dict (`d[k] = v` keeps the position of an existing binding, else
appends). -/
abbrev PropMap := List (String × String)

/-- Python `d[k] = v` on a dict modelled as an association list. -/
def dictInsert (k v : String) (l : PropMap) : PropMap :=
  if l.any (fun p => p.1 = k) then l.map (fun p => if p.1 = k then (k, v) else p)
  else l ++ [(k, v)]

/-- Python `base.update(upd)`. -/
def dictUpdate (base upd : PropMap) : PropMap :=
  upd.foldl (fun acc p => dictInsert p.1 p.2 acc) base

/-- Dict lookup. -/
def dictGet (k : String) (l : PropMap) : Option String :=
  (l.find? (fun p => p.1 = k)).map (fun p => p.2)

/-- The body of the `read_properties` loop: one `property` child, carrying
exactly `name` and `value`, overwrites any earlier binding of the name. -/
def readPropStep (props : PropMap) (prop : Node) : Except Err PropMap := do
  if Node.tag prop ≠ "property" then throw (.formatErr "property")
  let (n, rest) ← popStr "name" (Node.attrs prop)
  let (v, rest2) ← popStr "value" rest
  if rest2 ≠ [] then throw (.unexpectedAttr "property")
  pure (dictInsert n v props)

/-- `read_properties(elem)`: every child must be a `property` node carrying
exactly `name` and `value`; later bindings overwrite earlier ones. -/
def read_properties (elem : Node) : Except Err PropMap := do
  if elem.tag ≠ "properties" then throw (.formatErr "properties")
  if elem.attrs ≠ [] then throw (.unexpectedAttr "properties")
  List.foldlM readPropStep ([] : PropMap) elem.children

/-- `append_properties(parent, props)`: the list of children this call adds to
`parent` — one `properties` node when the bag is nonempty, nothing at all when
it is empty. -/
def append_properties (props : PropMap) : List Node :=
  if props = [] then []
  else
    [.mk "properties" []
      (props.map (fun p => .mk "property" [("name", .s p.1), ("value", .s p.2)] [] none))
      none]

/-! ## Tile data packing (`struct.pack('<%sI', *data)`) and the slice/zip
decode of `tile_layer_from_element` -/

/-- The four little-endian bytes of a 32-bit value. -/
def le32 (v : Nat) : List Nat :=
  [v % 256, v / 256 % 256, v / 65536 % 256, v / 16777216 % 256]

/-- `struct.pack('<%sI' % len(data), *data)`: little-endian unsigned 32-bit
words; an out-of-range value raises `struct.error`. -/
def packLE32 (data : List Nat) : Except Err (List Nat) :=
  if data.all (fun v => v < 4294967296) then .ok (data.flatMap le32)
  else .error .packErr

/-- Python extended slice `l[start::step]` (for `step ≥ 1`). -/
def everyNth (step : Nat) (l : List α) : List α :=
  match l with
  | [] => []
  | a :: rest => a :: everyNth step (rest.drop (step - 1))
  termination_by l.length
  decreasing_by simp [List.length_drop]; omega

def pySlice (start step : Nat) (l : List α) : List α :=
  everyNth step (l.drop start)

/-- `zip` over four lists, truncating to the shortest. -/
def zip4 : List α → List α → List α → List α → List (α × α × α × α)
  | a :: as, b :: bs, c :: cs, d :: ds => (a, b, c, d) :: zip4 as bs cs ds
  | _, _, _, _ => []

/-- The list comprehension of `tile_layer_from_element`:
`[(ord(a) + (ord(b) << 8) + (ord(c) << 16) + (ord(d) << 24)) for a, b, c, d in
zip(*(data[x::4] for x in range(4)))]` (shifts written as multiplications). -/
def tileDataFromBytes (data : List Nat) : List Nat :=
  (zip4 (pySlice 0 4 data) (pySlice 1 4 data) (pySlice 2 4 data) (pySlice 3 4 data)).map
    (fun t => t.1 + t.2.1 * 256 + t.2.2.1 * 65536 + t.2.2.2 * 16777216)

theorem everyNth_nil (step : Nat) : everyNth step ([] : List α) = [] := by
  rw [everyNth]

theorem everyNth_cons (step : Nat) (a : α) (rest : List α) :
    everyNth step (a :: rest) = a :: everyNth step (rest.drop (step - 1)) := by
  rw [everyNth]

theorem tileDataFromBytes_nil : tileDataFromBytes [] = [] := by
  simp [tileDataFromBytes, pySlice, everyNth_nil, zip4]

theorem tileDataFromBytes_cons (a b c d : Nat) (rest : List Nat) :
    tileDataFromBytes (a :: b :: c :: d :: rest) =
      (a + b * 256 + c * 65536 + d * 16777216) :: tileDataFromBytes rest := by
  have h0 : pySlice 0 4 (a :: b :: c :: d :: rest) = a :: pySlice 0 4 rest := by
    show everyNth 4 (a :: b :: c :: d :: rest) = a :: everyNth 4 rest
    rw [everyNth_cons]; rfl
  have h1 : pySlice 1 4 (a :: b :: c :: d :: rest) = b :: pySlice 1 4 rest := by
    show everyNth 4 (b :: c :: d :: rest) = b :: everyNth 4 (rest.drop 1)
    rw [everyNth_cons]; rfl
  have h2 : pySlice 2 4 (a :: b :: c :: d :: rest) = c :: pySlice 2 4 rest := by
    show everyNth 4 (c :: d :: rest) = c :: everyNth 4 (rest.drop 2)
    rw [everyNth_cons]; rfl
  have h3 : pySlice 3 4 (a :: b :: c :: d :: rest) = d :: pySlice 3 4 rest := by
    show everyNth 4 (d :: rest) = d :: everyNth 4 (rest.drop 3)
    rw [everyNth_cons]
  simp only [tileDataFromBytes, h0, h1, h2, h3, zip4, List.map]

theorem tileDataFromBytes_short (l : List Nat) (h : l.length < 4) :
    tileDataFromBytes l = [] := by
  match l, h with
  | [], _ => exact tileDataFromBytes_nil
  | [a], _ =>
    simp [tileDataFromBytes, pySlice, everyNth_nil, everyNth_cons, zip4]
  | [a, b], _ =>
    simp [tileDataFromBytes, pySlice, everyNth_nil, everyNth_cons, zip4]
  | [a, b, c], _ =>
    simp [tileDataFromBytes, pySlice, everyNth_nil, everyNth_cons, zip4]

/-- The slice/zip decode produces one cell per complete 4-byte group; a
trailing partial group is silently discarded by `zip`'s truncation. -/
theorem tileDataFromBytes_length :
    ∀ data : List Nat, (tileDataFromBytes data).length = data.length / 4
  | [] => by simp [tileDataFromBytes_nil]
  | [a] => by rw [tileDataFromBytes_short [a] (by simp)]; simp
  | [a, b] => by rw [tileDataFromBytes_short [a, b] (by simp)]; simp
  | [a, b, c] => by rw [tileDataFromBytes_short [a, b, c] (by simp)]; simp
  | a :: b :: c :: d :: rest => by
    rw [tileDataFromBytes_cons]
    simp only [List.length_cons, tileDataFromBytes_length rest]
    omega

/-- Unpacking inverts `struct.pack('<I')`-style packing. -/
theorem tileDataFromBytes_flatMap_le32 (data : List Nat)
    (h : ∀ v ∈ data, v < 4294967296) :
    tileDataFromBytes (data.flatMap le32) = data := by
  induction data with
  | nil => simpa using tileDataFromBytes_nil
  | cons v rest ih =>
    have hv : v < 4294967296 := h v (by simp)
    rw [List.flatMap_cons]
    show tileDataFromBytes
      (v % 256 :: v / 256 % 256 :: v / 65536 % 256 :: v / 16777216 % 256 ::
        rest.flatMap le32) = v :: rest
    rw [tileDataFromBytes_cons, ih (fun w hw => h w (by simp [hw]))]
    congr 1
    omega

theorem tileDataFromBytes_drop :
    ∀ (data : List Nat) (i : Nat),
      tileDataFromBytes (data.drop (4 * i)) = (tileDataFromBytes data).drop i
  | [], i => by cases i <;> simp [tileDataFromBytes_nil]
  | [a], i => by
    cases i with
    | zero => simp
    | succ j =>
      rw [List.drop_eq_nil_of_le (by simp; omega), tileDataFromBytes_nil,
        tileDataFromBytes_short [a] (by simp)]
      simp
  | [a, b], i => by
    cases i with
    | zero => simp
    | succ j =>
      rw [List.drop_eq_nil_of_le (by simp; omega), tileDataFromBytes_nil,
        tileDataFromBytes_short [a, b] (by simp)]
      simp
  | [a, b, c], i => by
    cases i with
    | zero => simp
    | succ j =>
      rw [List.drop_eq_nil_of_le (by simp; omega), tileDataFromBytes_nil,
        tileDataFromBytes_short [a, b, c] (by simp)]
      simp
  | a :: b :: c :: d :: rest, i => by
    cases i with
    | zero => simp
    | succ j =>
      rw [tileDataFromBytes_cons, show (4 * (j + 1)) = 4 + 4 * j from by ring,
        ← List.drop_drop]
      rw [show ((a :: b :: c :: d :: rest).drop 4) = rest from rfl,
        tileDataFromBytes_drop rest j]
      rfl

theorem tileDataFromBytes_head (data : List Nat) (h : 0 < data.length / 4) :
    (tileDataFromBytes data).getD 0 0 =
      data.getD 0 0 + 256 * data.getD 1 0 + 65536 * data.getD 2 0 +
        16777216 * data.getD 3 0 := by
  match data, h with
  | [], h => exact absurd h (by norm_num)
  | [a], h => exact absurd h (by norm_num)
  | [a, b], h => exact absurd h (by norm_num)
  | [a, b, c], h => exact absurd h (by norm_num)
  | a :: b :: c :: d :: rest, _ =>
    rw [tileDataFromBytes_cons]
    simp
    ring

/-- Each decoded cell is the little-endian 32-bit value of its 4-byte group. -/
theorem tileDataFromBytes_getD (data : List Nat) (i : Nat) (h : i < data.length / 4) :
    (tileDataFromBytes data).getD i 0 =
      data.getD (4 * i) 0 + 256 * data.getD (4 * i + 1) 0 +
        65536 * data.getD (4 * i + 2) 0 + 16777216 * data.getD (4 * i + 3) 0 := by
  have hgd : ∀ (l : List Nat) (j k : Nat), (l.drop j).getD k 0 = l.getD (j + k) 0 := by
    intro l j k
    rw [List.getD_eq_getElem?_getD, List.getD_eq_getElem?_getD, List.getElem?_drop]
  have hlen : 0 < (data.drop (4 * i)).length / 4 := by
    simp only [List.length_drop]
    omega
  have main := tileDataFromBytes_head (data.drop (4 * i)) hlen
  rw [tileDataFromBytes_drop data i] at main
  rw [hgd, hgd, hgd, hgd, hgd] at main
  simpa using main

/-! ## Transport encoding: base64 (`base64.b64encode` / `base64.b64decode`) -/

def b64Alphabet : List Char :=
  "ABCDEFGHIJKLMNOPQRSTUVWXYZabcdefghijklmnopqrstuvwxyz0123456789+/".toList

def b64Char (n : Nat) : Char := b64Alphabet.getD n '?'

def b64Index (c : Char) : Option Nat := b64Alphabet.findIdx? (fun x => x = c)

/-- RFC 4648 base64 of a byte list, with `=` padding (shifts and masks written
as division/multiplication/remainder by powers of two). -/
def b64encodeL : List Nat → List Char
  | [] => []
  | [a] => [b64Char (a / 4), b64Char (a % 4 * 16), '=', '=']
  | [a, b] => [b64Char (a / 4), b64Char (a % 4 * 16 + b / 16), b64Char (b % 16 * 4), '=']
  | a :: b :: c :: rest =>
    b64Char (a / 4) :: b64Char (a % 4 * 16 + b / 16) ::
      b64Char (b % 16 * 4 + c / 64) :: b64Char (c % 64) :: b64encodeL rest

/-- Base64 decoding; `none` on a malformed input (as `b64decode` raising). -/
def b64decodeL : List Char → Option (List Nat)
  | [] => some []
  | c1 :: c2 :: c3 :: c4 :: rest =>
    if c3 = '=' ∧ c4 = '=' ∧ rest = [] then
      match b64Index c1, b64Index c2 with
      | some n1, some n2 => some [n1 * 4 + n2 / 16]
      | _, _ => none
    else if c4 = '=' ∧ rest = [] then
      match b64Index c1, b64Index c2, b64Index c3 with
      | some n1, some n2, some n3 => some [n1 * 4 + n2 / 16, n2 % 16 * 16 + n3 / 4]
      | _, _, _ => none
    else
      match b64Index c1, b64Index c2, b64Index c3, b64Index c4, b64decodeL rest with
      | some n1, some n2, some n3, some n4, some tail =>
        some ((n1 * 4 + n2 / 16) :: (n2 % 16 * 16 + n3 / 4) :: (n3 % 4 * 64 + n4) :: tail)
      | _, _, _, _, _ => none
  | _ => none

def b64encode (bs : List Nat) : String := String.mk (b64encodeL bs)

def b64decode (s : String) : Option (List Nat) := b64decodeL s.toList

theorem b64Index_b64Char : ∀ n < 64, b64Index (b64Char n) = some n := by decide

theorem b64Char_ne_pad (n : Nat) : b64Char n ≠ '=' := by
  rcases Nat.lt_or_ge n 64 with h | h
  · revert n h
    decide
  · unfold b64Char
    rw [List.getD_eq_default]
    · decide
    · have : b64Alphabet.length = 64 := by decide
      omega

theorem b64decodeL_b64encodeL :
    ∀ bs : List Nat, (∀ b ∈ bs, b < 256) → b64decodeL (b64encodeL bs) = some bs
  | [], _ => rfl
  | [a], h => by
    have ha : a < 256 := h a (by simp)
    simp only [b64encodeL, b64decodeL]
    rw [if_pos ⟨trivial, trivial, trivial⟩, b64Index_b64Char _ (by omega), b64Index_b64Char _ (by omega)]
    simp only [Option.some.injEq, List.cons.injEq, and_true]
    omega
  | [a, b], h => by
    have ha : a < 256 := h a (by simp)
    have hb : b < 256 := h b (by simp)
    simp only [b64encodeL, b64decodeL]
    rw [if_neg (fun hc => b64Char_ne_pad _ hc.1), if_pos ⟨trivial, trivial⟩,
      b64Index_b64Char _ (by omega), b64Index_b64Char _ (by omega),
      b64Index_b64Char _ (by omega)]
    simp only [Option.some.injEq, List.cons.injEq, and_true]
    constructor
    · omega
    · omega
  | a :: b :: c :: rest, h => by
    have ha : a < 256 := h a (by simp)
    have hb : b < 256 := h b (by simp)
    have hc : c < 256 := h c (by simp)
    have ih := b64decodeL_b64encodeL rest (fun x hx => h x (by simp [hx]))
    simp only [b64encodeL, b64decodeL]
    rw [if_neg (fun hp => b64Char_ne_pad _ hp.2.1),
      if_neg (fun hp => b64Char_ne_pad _ hp.1),
      b64Index_b64Char _ (by omega), b64Index_b64Char _ (by omega),
      b64Index_b64Char _ (by omega), b64Index_b64Char _ (by omega), ih]
    simp only [Option.some.injEq, List.cons.injEq]
    refine ⟨by omega, by omega, by omega, trivial⟩

/-- `b64decode(b64encode(bs)) == bs` for any byte list. -/
theorem b64decode_b64encode (bs : List Nat) (h : ∀ b ∈ bs, b < 256) :
    b64decode (b64encode bs) = some bs := by
  unfold b64decode b64encode
  exact b64decodeL_b64encodeL bs h

/-! ## Compression collaborators (`zlib`, `gzip`)

The compression libraries are Python-stdlib collaborators, not repository
code; the pipeline is parameterised over them.  `gzipCompress` takes the
member timestamp because `tile_layer_to_element` feeds
`GzipFile(..., mtime=getattr(layer, 'mtime', None))`, and the gzip container
stores that timestamp in its fixed header — the load-bearing fact for
determinism. -/

structure ExtCodecs where
  zlibCompress : List Nat → List Nat
  zlibDecompress : List Nat → Option (List Nat)
  /-- first argument: the gzip member header timestamp -/
  gzipCompress : Nat → List Nat → List Nat
  gzipDecompress : List Nat → Option (List Nat)

/-- The documented contract of the collaborators: lossless round-trip
(for gzip, whatever the header timestamp), byte-valued output. -/
structure ExtCodecsOk (C : ExtCodecs) : Prop where
  zlib_roundtrip : ∀ b, C.zlibDecompress (C.zlibCompress b) = some b
  gzip_roundtrip : ∀ t b, C.gzipDecompress (C.gzipCompress t b) = some b
  zlib_bytes : ∀ b, (∀ x ∈ b, x < 256) → ∀ x ∈ C.zlibCompress b, x < 256
  gzip_bytes : ∀ t b, (∀ x ∈ b, x < 256) → ∀ x ∈ C.gzipCompress t b, x < 256

/-- gzip member header (RFC 1952): magic `1f 8b`, method 8 (deflate), no
flags, 4-byte little-endian mtime, XFL 0, OS 255 (unknown). -/
def gzipHeader (mtime : Nat) : List Nat :=
  [31, 139, 8, 0] ++ le32 mtime ++ [0, 255]

/-- Reference instance of the collaborators, used to run the pipeline on
concrete inputs: the container framing is kept (zlib's `78 9c` preamble, the
gzip header with its embedded timestamp) and the DEFLATE body is the
identity — the entropy coder itself is external and irrelevant to every
claim. -/
def refCodecs : ExtCodecs where
  zlibCompress b := [120, 156] ++ b
  zlibDecompress b := if b.take 2 = [120, 156] then some (b.drop 2) else none
  gzipCompress t b := gzipHeader t ++ b
  gzipDecompress b :=
    if b.take 4 = [31, 139, 8, 0] ∧ 10 ≤ b.length then some (b.drop 10) else none

theorem refCodecs_ok : ExtCodecsOk refCodecs := by
  constructor
  · intro b
    simp [refCodecs]
  · intro t b
    simp [refCodecs, gzipHeader, le32]
  · intro b hb x hx
    simp only [refCodecs, List.mem_append, List.mem_cons] at hx
    rcases hx with (h | h | h) | h
    · omega
    · omega
    · simp at h
    · exact hb x h
  · intro t b hb x hx
    simp only [refCodecs, gzipHeader, le32, List.append_assoc, List.cons_append,
      List.nil_append, List.mem_append, List.mem_cons] at hx
    rcases hx with h | h | h | h | h | h | h | h | h | h | h
    · omega
    · omega
    · omega
    · omega
    · omega
    · omega
    · omega
    · omega
    · omega
    · omega
    · exact hb x h

/-! ## The document model (spec §3, fields as read/written by `fileio.py`) -/

structure Image where
  source : String
  trans : Option (Nat × Nat × Nat)
  size : Nat × Nat
  deriving DecidableEq, Repr

/-- A tileset; `source = some path` marks the External variant
(`tileset.source is not None`). -/
structure Tileset where
  source : Option String
  name : String
  tile_size : Nat × Nat
  margin : Nat
  spacing : Nat
  image : Option Image
  tile_properties : List (Nat × PropMap)
  deriving DecidableEq, Repr

/-- Modelled from the spec: the declared tile count of a tileset.  It lives in
the core module (`tmxlib/__init__.py`, not under `src/`), derived from the
image grid; the codec needs it only as a function of fields it preserves
(spec §3: the first global ID is "the running sum of tile counts of all
preceding tilesets ... offset by 1"). -/
def Tileset.numTiles (t : Tileset) : Nat :=
  match t.image with
  | none => 0
  | some img =>
    ((img.size.1 - 2 * t.margin + t.spacing) / (t.tile_size.1 + t.spacing)) *
      ((img.size.2 - 2 * t.margin + t.spacing) / (t.tile_size.2 + t.spacing))

/-- A placed object (`size` is the effective size: `(0, 0)` means
unspecified; `value` is the global tile id, 0 meaning none). -/
structure MapObject where
  pos : Int × Int
  size : Nat × Nat
  value : Nat
  name : Option String
  otype : Option String
  deriving DecidableEq, Repr

structure TileLayer where
  name : String
  opacity : Rat
  visible : Bool
  /-- cell data, row-major global tile ids -/
  data : List Nat
  /-- the Python attribute `encoding`: `none` = attribute absent (so
      `getattr(layer, 'encoding', 'base64')` defaults), `some none` = `None`,
      `some (some s)` = the string `s` -/
  encoding : Option (Option String)
  /-- the Python attribute `compression`, same convention (default `'zlib'`) -/
  compression : Option (Option String)
  /-- gzip timestamp override: `getattr(layer, 'mtime', None)` -/
  mtime : Option Nat
  properties : PropMap
  deriving DecidableEq, Repr

structure ObjectLayer where
  name : String
  opacity : Rat
  visible : Bool
  objects : List MapObject
  properties : PropMap
  deriving DecidableEq, Repr

/-- `layer.type` dispatch (`'tiles'` / `'objects'`) as a tagged variant. -/
inductive Layer where
  | tiles (l : TileLayer)
  | objects (l : ObjectLayer)
  deriving DecidableEq, Repr

structure Map where
  size : Nat × Nat
  tile_size : Nat × Nat
  orientation : String
  base_path : Option String
  properties : PropMap
  tilesets : List Tileset
  layers : List Layer
  deriving DecidableEq, Repr

/-- Modelled from the spec: `tileset.first_gid(map)` (core module, not under
`src/`): 1 plus the sum of the tile counts of the preceding tilesets. -/
def firstGidOf (tilesets : List Tileset) (i : Nat) : Nat :=
  1 + ((tilesets.take i).map Tileset.numTiles).sum

/-- Modelled from the spec: `object.tileset_tile.size` — resolve a global
tile id to the owning tileset (by cumulative tile-count ranges) and take that
tileset's tile size; `none` when the id is 0 or resolves to no tileset. -/
def tileSizeAux (g : Nat) : List Tileset → Nat → Option (Nat × Nat)
  | [], _ => none
  | t :: rest, base =>
    if base ≤ g ∧ g < base + t.numTiles then some t.tile_size
    else tileSizeAux g rest (base + t.numTiles)

def Map.tileSizeOfGid (m : Map) (g : Nat) : Option (Nat × Nat) :=
  if g = 0 then none else tileSizeAux g m.tilesets 1

/-! ## Remaining attribute helpers -/

/-- `elem.attrib.pop(key, default)` coerced with `int()`, for `uint` fields. -/
def popNatD (key : String) (dflt : Nat) (a : Attrs) : Except Err (Nat × Attrs) :=
  match popAttr key a with
  | (none, rest) => .ok (dflt, rest)
  | (some v, rest) =>
    match v.asNat with
    | some n => .ok (n, rest)
    | none => .error (.badValue key)

/-- `int(elem.attrib.pop(key))` for signed fields. -/
def popInt (key : String) (a : Attrs) : Except Err (Int × Attrs) := do
  let (v, rest) ← popReq key a
  match v.asInt with
  | some n => .ok (n, rest)
  | none => .error (.badValue key)

/-- `int(elem.attrib.pop(key, dflt))` for signed fields. -/
def popIntD (key : String) (dflt : Int) (a : Attrs) : Except Err (Int × Attrs) :=
  match popAttr key a with
  | (none, rest) => .ok (dflt, rest)
  | (some v, rest) =>
    match v.asInt with
    | some n => .ok (n, rest)
    | none => .error (.badValue key)

/-- `float(elem.attrib.pop(key, dflt))`. -/
def popQD (key : String) (dflt : Rat) (a : Attrs) : Except Err (Rat × Attrs) :=
  match popAttr key a with
  | (none, rest) => .ok (dflt, rest)
  | (some v, rest) =>
    match v.asQ with
    | some x => .ok (x, rest)
    | none => .error (.badValue key)

/-- Python truthiness of an attribute value. -/
def AVal.truthy : AVal → Bool
  | .s v => v ≠ ""
  | .i v => v ≠ 0
  | .q v => v ≠ 0

/-! ## Color codec (`from_rgb` / `to_rgb`) -/

/-- Value of one hexadecimal digit (`binascii.unhexlify` accepts both cases). -/
def hexVal (c : Char) : Option Nat :=
  if '0' ≤ c ∧ c ≤ '9' then some (c.toNat - 48)
  else if 'a' ≤ c ∧ c ≤ 'f' then some (c.toNat - 87)
  else if 'A' ≤ c ∧ c ≤ 'F' then some (c.toNat - 55)
  else none

/-- `ord(binascii.unhexlify(two-digit-string))`. -/
def unhexPair (c1 c2 : Char) : Option Nat := do
  let a ← hexVal c1
  let b ← hexVal c2
  pure (a * 16 + b)

/-- `from_rgb(string)`: strip an optional leading `#`; length 3 duplicates
each digit, length 6 is parsed pairwise; any other length leaves `parts`
unbound (the source has no `else` branch) and the call fails. -/
def from_rgb (s : String) : Except Err (Nat × Nat × Nat) :=
  let cs0 := s.toList
  let cs := if cs0.head? = some '#' then cs0.drop 1 else cs0
  match cs with
  | [c1, c2, c3] =>
    match unhexPair c1 c1, unhexPair c2 c2, unhexPair c3 c3 with
    | some a, some b, some c => .ok (a, b, c)
    | _, _, _ => .error (.formatErr "color")
  | [c1, c2, c3, c4, c5, c6] =>
    match unhexPair c1 c2, unhexPair c3 c4, unhexPair c5 c6 with
    | some a, some b, some c => .ok (a, b, c)
    | _, _, _ => .error (.formatErr "color")
  | _ => .error (.formatErr "color")

/-- Python `hex(p)[2:]`: lowercase hexadecimal digits, no leading zeros. -/
def pyHex (p : Nat) : List Char := Nat.toDigits 16 p

/-- Python `str.ljust(2, '0')`: pad on the RIGHT to length 2. -/
def ljust2 (l : List Char) : List Char :=
  if l.length < 2 then l ++ List.replicate (2 - l.length) '0' else l

/-- `to_rgb(rgb)`: `''.join(hex(p)[2:].ljust(2, '0') for p in rgb)` —
note the source right-pads each byte's digits with `ljust`. -/
def to_rgb (rgb : Nat × Nat × Nat) : String :=
  String.mk (ljust2 (pyHex rgb.1) ++ ljust2 (pyHex rgb.2.1) ++ ljust2 (pyHex rgb.2.2))

/-! ## Image codec (`read_image` / `write_image`) -/

def read_image (elem : Node) : Except Err Image := do
  let (transA, a1) := popAttr "trans" elem.attrs
  let trans ← match transA with
    | none => pure none
    | some v =>
      match v.asStr with
      | none => throw (Err.badValue "trans")
      | some s =>
        if s = "" then pure none
        else do
          let t ← from_rgb s
          pure (some t)
  let (src, a2) ← popStr "source" a1
  let (w, a3) ← popNatD "width" 0 a2
  let (h, a4) ← popNatD "height" 0 a3
  if a4 ≠ [] then throw (.unexpectedAttr "image")
  pure { source := src, trans := trans, size := (w, h) }

def write_image (image : Image) : Node :=
  .mk "image"
    ([("source", .s image.source)] ++
      (if image.size.2 ≠ 0 then [("height", AVal.i (image.size.2 : Int))] else []) ++
      (if image.size.1 ≠ 0 then [("width", AVal.i (image.size.1 : Int))] else []) ++
      (match image.trans with
       | some t => [("trans", AVal.s (to_rgb t))]
       | none => []))
    [] none

/-! ## Tileset codec (`read_tileset` / `write_tileset`) -/

/-- `os.path.isabs` (POSIX). -/
def isAbs (s : String) : Bool := s.toList.head? = some '/'

/-- `os.path.join(a, b)` (POSIX, for nonempty `a`). -/
def pathJoin (a b : String) : String :=
  if isAbs b then b else if a.toList.getLast? = some '/' then a ++ b else a ++ "/" ++ b

/-- One step of the embedded-tileset child loop. -/
def tilesetChildStep (ts : Tileset) (sub : Node) : Except Err Tileset := do
  if sub.tag = "image" then do
    if ts.image ≠ none then throw .duplicateImage
    let img ← read_image sub
    pure {ts with image := some img}
  else if sub.tag = "tile" then do
    let (id, _) ← popNat "id" sub.attrs
    sub.children.foldlM
      (fun acc subsub => do
        if Node.tag subsub = "properties" then do
          let ps ← read_properties subsub
          -- `props = tileset.tile_properties[id]; props.update(...)` on a defaultdict
          let tp :=
            if acc.tile_properties.any (fun p => p.1 = id) then
              acc.tile_properties.map
                (fun p => if p.1 = id then (p.1, dictUpdate p.2 ps) else p)
            else acc.tile_properties ++ [(id, dictUpdate [] ps)]
          pure {acc with tile_properties := tp}
        else throw (Err.unknownElement (Node.tag subsub)))
      ts
  else throw (.unknownElement sub.tag)

/-- The embedded branch of `read_tileset`: `a1` is the attribute map with
`source` already popped, `children` the element's children. -/
def read_tileset_embedded (a1 : Attrs) (children : List Node) :
    Except Err (Tileset × Nat) := do
  let (nm, b1) ← popStr "name" a1
  let (tw, b2) ← popNat "tilewidth" b1
  let (th, b3) ← popNat "tileheight" b2
  let (mg, b4) ← popNatD "margin" 0 b3
  let (sp, b5) ← popNatD "spacing" 0 b4
  let (fg, b6) ← popNatD "firstgid" 0 b5
  if b6 ≠ [] then throw (.unexpectedAttr "tileset")
  let ts0 : Tileset :=
    { source := none, name := nm, tile_size := (tw, th), margin := mg,
      spacing := sp, image := none, tile_properties := [] }
  let ts ← children.foldlM tilesetChildStep ts0
  pure (ts, fg)

/-- `read_tileset(cls, elem, base_path)`; the external "open tileset by path"
collaborator (`cls.open`) is the `resolver` parameter.  Returns the tileset
together with its `_read_first_gid`. -/
def read_tileset (resolver : String → Except Err Tileset) (elem : Node)
    (base_path : Option String) : Except Err (Tileset × Nat) := do
  let (srcA, a1) := popAttr "source" elem.attrs
  match srcA with
  | some v =>
    if v.truthy then do
      let src ← match v.asStr with
        | some s => pure s
        | none => throw (Err.badValue "source")
      let real_source ← match base_path with
        | none => if isAbs src then pure src else throw Err.pathErr
        | some b => if b ≠ "" then pure (pathJoin b src) else pure src
      let (fg, a2) ← popNat "firstgid" a1
      if a2 ≠ [] then throw (.unexpectedAttr "tileset")
      let ts ← resolver real_source
      pure ({ts with source := some src}, fg)
    else
      read_tileset_embedded a1 elem.children
  | none => read_tileset_embedded a1 elem.children

/-- Insertion into a key-sorted tile-properties list (for Python
`sorted(tileset.tile_properties.items())`). -/
def insertSortedTP (p : Nat × PropMap) : List (Nat × PropMap) → List (Nat × PropMap)
  | [] => [p]
  | q :: rest => if p.1 ≤ q.1 then p :: q :: rest else q :: insertSortedTP p rest

def sortTileProps (l : List (Nat × PropMap)) : List (Nat × PropMap) :=
  l.foldr insertSortedTP []

/-- `write_tileset(tileset, base_path, first_gid)`. -/
def write_tileset (t : Tileset) (first_gid : Nat) : Node :=
  match t.source with
  | some src =>
    .mk "tileset"
      ([("source", .s src)] ++
        (if first_gid ≠ 0 then [("firstgid", AVal.i (first_gid : Int))] else []))
      [] none
  | none =>
    .mk "tileset"
      ([("name", .s t.name), ("tileheight", AVal.i (t.tile_size.2 : Int)),
        ("tilewidth", AVal.i (t.tile_size.1 : Int))] ++
        (if first_gid ≠ 0 then [("firstgid", AVal.i (first_gid : Int))] else []) ++
        (if t.spacing ≠ 0 then [("spacing", AVal.i (t.spacing : Int))] else []) ++
        (if t.margin ≠ 0 then [("margin", AVal.i (t.margin : Int))] else []))
      ((match t.image with
        | some img => [write_image img]
        | none => []) ++
        ((sortTileProps t.tile_properties).filterMap (fun p =>
          if p.2 ≠ [] then
            some (Node.mk "tile" [("id", AVal.i (p.1 : Int))] (append_properties p.2) none)
          else none)))
      none

/-! ## Tile-layer binary pipeline
(`tile_layer_from_element` / `tile_layer_to_element`) -/

/-- Modelled from the spec: assigning `layer.data` on `ArrayMapLayer` (core
module, not under `src/`) enforces the documented invariant
`len(data) == width * height` (spec §3 and §8, error kind `DataLengthError`).
The check can only see the decoded cell sequence: the slice/`zip` decode in
`fileio.py` has already discarded a trailing partial 4-byte group. -/
def setLayerData (mapSize : Nat × Nat) (cells : List Nat) : Except Err (List Nat) :=
  if cells.length = mapSize.1 * mapSize.2 then .ok cells else .error .dataLength

/-- One step of the tile-layer child loop; the `Bool` is `data_set`. -/
def tileLayerChildStep (C : ExtCodecs) (mapSize : Nat × Nat)
    (st : TileLayer × Bool) (sub : Node) : Except Err (TileLayer × Bool) := do
  let (l, ds) := st
  if sub.tag = "properties" then do
    let ps ← read_properties sub
    pure ({l with properties := dictUpdate l.properties ps}, ds)
  else if sub.tag = "data" then do
    if ds then throw .dataChildErr
    let txt ← match sub.text with
      | some t => pure t
      | none => throw Err.payloadErr
    let (encA, dAttrs) ← popReq "encoding" sub.attrs
    if encA ≠ .s "base64" then throw .unsupportedEncoding
    let bytes ← match b64decode txt with
      | some b => pure b
      | none => throw Err.payloadErr
    let (cmpA, _) := popAttr "compression" dAttrs
    let (cmp, bytes2) ←
      match cmpA with
      | some (.s "gzip") =>
        (match C.gzipDecompress bytes with
         | some b => pure ((some (some "gzip") : Option (Option String)), b)
         | none => throw Err.payloadErr)
      | some (.s "zlib") =>
        (match C.zlibDecompress bytes with
         | some b => pure ((some (some "zlib") : Option (Option String)), b)
         | none => throw Err.payloadErr)
      | some v =>
        if v.truthy then throw Err.unsupportedCompression
        else pure ((some none : Option (Option String)), bytes)
      | none => pure ((some none : Option (Option String)), bytes)
    let data ← setLayerData mapSize (tileDataFromBytes bytes2)
    pure ({l with encoding := some (some "base64"), compression := cmp, data := data}, true)
  else throw (.unknownElement sub.tag)

def tile_layer_from_element (C : ExtCodecs) (elem : Node) (mapSize : Nat × Nat) :
    Except Err TileLayer := do
  let (nm, a1) ← popStr "name" elem.attrs
  let (op, a2) ← popQD "opacity" 1 a1
  let (vis, a3) ← popIntD "visible" 1 a2
  let (w, a4) ← popNat "width" a3
  let (h, a5) ← popNat "height" a4
  if (w, h) ≠ mapSize then throw .layerSizeMismatch
  if a5 ≠ [] then throw (.unexpectedAttr "layer")
  let l0 : TileLayer :=
    { name := nm, opacity := op, visible := vis ≠ 0, data := [],
      encoding := none, compression := none, mtime := none, properties := [] }
  let (l, data_set) ← elem.children.foldlM (tileLayerChildStep C mapSize) (l0, false)
  if ¬ data_set then throw .dataChildErr
  pure l

/-- The three data transforms of the write path, in source order. -/
inductive Stage where
  | pack
  | compress
  | encode
  deriving DecidableEq, Repr

/-- `tile_layer_to_element(layer)`, instrumented with the list of data
transforms that completed before the result (the `Stage` trace makes the
"partial work before an error" behaviour observable).  `now` is the wall
clock `gzip.GzipFile` reads when `layer.mtime` is absent. -/
def tile_layer_to_element_traced (C : ExtCodecs) (now : Nat) (mapSize : Nat × Nat)
    (layer : TileLayer) : List Stage × Except Err Node :=
  let baseAttrs : Attrs :=
    [("name", .s layer.name), ("width", AVal.i (mapSize.1 : Int)),
      ("height", AVal.i (mapSize.2 : Int))] ++
      (if layer.visible = false then [("visible", AVal.i 0)] else []) ++
      (if layer.opacity ≠ 1 then [("opacity", AVal.q layer.opacity)] else [])
  let propNodes := append_properties layer.properties
  let compression := layer.compression.getD (some "zlib")
  let encoding := layer.encoding.getD (some "base64")
  let extra : Attrs :=
    (match compression with
     | some s => if s = "" then [] else [("compression", AVal.s s)]
     | none => []) ++
    (match encoding with
     | some s => if s = "" then [] else [("encoding", AVal.s s)]
     | none => [])
  match packLE32 layer.data with
  | .error e => ([], .error e)
  | .ok packed =>
    let finish := fun (tr : List Stage) (payload : List Nat) =>
      if encoding = some "base64" then
        (tr ++ [Stage.encode],
          Except.ok (Node.mk "layer" baseAttrs
            (propNodes ++ [Node.mk "data" extra [] (some (b64encode payload))]) none))
      else (tr, Except.error Err.unsupportedEncoding)
    if compression = some "gzip" then
      finish [Stage.pack, Stage.compress] (C.gzipCompress (layer.mtime.getD now) packed)
    else if compression = some "zlib" then
      finish [Stage.pack, Stage.compress] (C.zlibCompress packed)
    else if compression.getD "" ≠ "" then
      ([Stage.pack], .error Err.unsupportedCompression)
    else
      finish [Stage.pack] packed

def tile_layer_to_element (C : ExtCodecs) (now : Nat) (mapSize : Nat × Nat)
    (layer : TileLayer) : Except Err Node :=
  (tile_layer_to_element_traced C now mapSize layer).2

/-! ## Object-layer codec
(`object_layer_from_element` / `object_layer_to_element`) -/

/-- Modelled from the spec: `MapObject` construction (core module, not under
`src/`).  The effective size is the stored one when nonzero, else the
referenced tile's size (spec §4.5's de-duplication presumes the reader infers
the size from the tile), else `(0, 0)`; an absent `gid` keyword leaves the
global tile id at 0 ("none"). -/
def mkMapObject (tileSize : Nat → Option (Nat × Nat)) (pos : Int × Int)
    (szGiven : Option (Nat × Nat)) (value : Nat) (name otype : Option String) :
    MapObject :=
  { pos := pos,
    size := if szGiven.getD (0, 0) ≠ (0, 0) then szGiven.getD (0, 0)
            else (tileSize value).getD (0, 0),
    value := value, name := name, otype := otype }

/-- One step of the object-layer child loop. -/
def objectLayerChildStep (m : Map) (l : ObjectLayer) (sub : Node) :
    Except Err ObjectLayer := do
  if sub.tag = "properties" then do
    let ps ← read_properties sub
    pure {l with properties := dictUpdate l.properties ps}
  else if sub.tag = "object" then do
    let (x, a1) ← popInt "x" sub.attrs
    let (y, a2) ← popInt "y" a1
    let (gidA, a3) := popAttr "gid" a2
    let value ← match gidA with
      | none => pure 0
      | some v =>
        match v.asNat with
        | some n => pure n
        | none => throw (Err.badValue "gid")
    let (nameA, a4) := popAttr "name" a3
    let name ← match nameA with
      | none => pure none
      | some v =>
        match v.asStr with
        | some s => pure (some s)
        | none => throw (Err.badValue "name")
    let (typeA, a5) := popAttr "type" a4
    let otype ← match typeA with
      | none => pure none
      | some v =>
        match v.asStr with
        | some s => pure (some s)
        | none => throw (Err.badValue "type")
    let (wA, a6) := popAttr "width" a5
    let (hA, a7) := popAttr "height" a6
    let szGiven ← match wA, hA with
      | none, none => pure none
      | some wv, some hv =>
        (match wv.asNat, hv.asNat with
         | some w, some h => pure (some (w, h))
         | _, _ => throw (Err.badValue "width"))
      | _, _ => throw (Err.badValue "width")
    if a7 ≠ [] then throw (.unexpectedAttr "object")
    pure {l with objects :=
      l.objects ++ [mkMapObject m.tileSizeOfGid (x, y) szGiven value name otype]}
  else pure l

def object_layer_from_element (elem : Node) (m : Map) : Except Err ObjectLayer := do
  let (nm, a1) ← popStr "name" elem.attrs
  let (op, a2) ← popQD "opacity" 1 a1
  let (vis, a3) ← popIntD "visible" 1 a2
  let (w, a4) ← popNat "width" a3
  let (h, a5) ← popNat "height" a4
  if (w, h) ≠ m.size then throw .layerSizeMismatch
  if a5 ≠ [] then throw (.unexpectedAttr "objectgroup")
  let l0 : ObjectLayer :=
    { name := nm, opacity := op, visible := vis ≠ 0, objects := [], properties := [] }
  elem.children.foldlM (objectLayerChildStep m) l0

/-- The de-duplicated size attributes of one placed object: emitted only when
the size is nonzero and not already implied by the referenced tile
(`object.size != (0, 0) and not (object.tileset_tile and
object.tileset_tile.size == object.size)`). -/
def objectSizeAttrs (m : Map) (o : MapObject) : Attrs :=
  if o.size ≠ (0, 0) ∧ ¬ (m.tileSizeOfGid o.value = some o.size) then
    [("width", AVal.i (o.size.1 : Int)), ("height", AVal.i (o.size.2 : Int))]
  else []

/-- The `object` element emitted for one placed object. -/
def objectNode (m : Map) (o : MapObject) : Node :=
  Node.mk "object"
    ([("x", AVal.i o.pos.1), ("y", AVal.i o.pos.2)] ++
      (if o.value ≠ 0 then [("gid", AVal.i (o.value : Int))] else []) ++
      (match o.name with
       | some n => if n ≠ "" then [("name", AVal.s n)] else []
       | none => []) ++
      (match o.otype with
       | some n => if n ≠ "" then [("type", AVal.s n)] else []
       | none => []) ++
      objectSizeAttrs m o)
    [] none

def object_layer_to_element (m : Map) (layer : ObjectLayer) : Node :=
  Node.mk "objectgroup"
    ([("name", .s layer.name), ("width", AVal.i (m.size.1 : Int)),
      ("height", AVal.i (m.size.2 : Int))] ++
      (if layer.visible = false then [("visible", AVal.i 0)] else []) ++
      (if layer.opacity ≠ 1 then [("opacity", AVal.q layer.opacity)] else []))
    (append_properties layer.properties ++ layer.objects.map (objectNode m))
    none

/-! ## Document codec (`read_map` / `write_map`) -/

/-- `layer_to_element(layer)`: dispatch on `layer.type`. -/
def layer_to_element (C : ExtCodecs) (now : Nat) (m : Map) : Layer → Except Err Node
  | .objects l => .ok (object_layer_to_element m l)
  | .tiles l => tile_layer_to_element C now m.size l

def write_map (C : ExtCodecs) (now : Nat) (m : Map) : Except Err Node := do
  let tsNodes := m.tilesets.mapIdx (fun i t => write_tileset t (firstGidOf m.tilesets i))
  let layerNodes ← m.layers.mapM (layer_to_element C now m)
  pure (Node.mk "map"
    [("version", .s "1.0"), ("orientation", .s m.orientation),
      ("width", AVal.i (m.size.1 : Int)), ("height", AVal.i (m.size.2 : Int)),
      ("tilewidth", AVal.i (m.tile_size.1 : Int)),
      ("tileheight", AVal.i (m.tile_size.2 : Int))]
    (append_properties m.properties ++ tsNodes ++ layerNodes) none)

/-- One step of the `read_map` child loop. -/
def mapChildStep (C : ExtCodecs) (resolver : String → Except Err Tileset)
    (m : Map) (elem : Node) : Except Err Map := do
  if elem.tag = "properties" then do
    let ps ← read_properties elem
    pure {m with properties := dictUpdate m.properties ps}
  else if elem.tag = "tileset" then do
    let (ts, rfg) ← read_tileset resolver elem m.base_path
    let m2 := {m with tilesets := m.tilesets ++ [ts]}
    if firstGidOf m2.tilesets (m2.tilesets.length - 1) ≠ rfg then
      throw .firstGidMismatch
    pure m2
  else if elem.tag = "layer" then do
    let l ← tile_layer_from_element C elem m.size
    pure {m with layers := m.layers ++ [.tiles l]}
  else if elem.tag = "objectgroup" then do
    let l ← object_layer_from_element elem m
    pure {m with layers := m.layers ++ [.objects l]}
  else throw (.unknownElement elem.tag)

def read_map (C : ExtCodecs) (resolver : String → Except Err Tileset)
    (root : Node) (base_path : Option String) : Except Err Map := do
  if root.tag ≠ "map" then throw (.formatErr "map")
  let (ver, a1) ← popReq "version" root.attrs
  if ver ≠ .s "1.0" then throw .versionErr
  let (w, a2) ← popNat "width" a1
  let (h, a3) ← popNat "height" a2
  let (tw, a4) ← popNat "tilewidth" a3
  let (th, a5) ← popNat "tileheight" a4
  let (ori, a6) ← popStr "orientation" a5
  if a6 ≠ [] then throw (.unexpectedAttr "map")
  let m0 : Map :=
    { size := (w, h), tile_size := (tw, th), orientation := ori,
      base_path := base_path, properties := [], tilesets := [], layers := [] }
  root.children.foldlM (mapChildStep C resolver) m0

/-! ## Round-trip lemmas: property bags -/

theorem excBind_ok {α β : Type} (a : α) (f : α → Except Err β) :
    (Except.ok a >>= f) = f a := rfl

theorem excBind_err {α β : Type} (e : Err) (f : α → Except Err β) :
    (Except.error e >>= f : Except Err β) = Except.error e := rfl

theorem excBind_pure {α β : Type} (a : α) (f : α → Except Err β) :
    ((pure a : Except Err α) >>= f) = f a := rfl

theorem pure_eq_ok {α : Type} (a : α) : (pure a : Except Err α) = .ok a := rfl

/-- The markup form of one property entry. -/
def propNode (p : String × String) : Node :=
  .mk "property" [("name", .s p.1), ("value", .s p.2)] [] none

theorem dictInsert_fresh (p : String × String) (init : PropMap)
    (h : ∀ q ∈ init, q.1 ≠ p.1) : dictInsert p.1 p.2 init = init ++ [p] := by
  unfold dictInsert
  rw [if_neg]
  simp only [List.any_eq_true, decide_eq_true_eq, not_exists, not_and]
  intro q hq
  exact h q hq

theorem dictUpdate_fresh : ∀ (ps init : PropMap),
    (ps.map Prod.fst).Nodup → (∀ p ∈ ps, ∀ q ∈ init, q.1 ≠ p.1) →
    dictUpdate init ps = init ++ ps
  | [], init, _, _ => by simp [dictUpdate]
  | p :: rest, init, hn, hd => by
    simp only [dictUpdate, List.foldl_cons]
    rw [show dictInsert p.1 p.2 init = init ++ [p] from
      dictInsert_fresh p init (fun q hq => hd p (by simp) q hq)]
    have hn2 : (rest.map Prod.fst).Nodup := by
      simp only [List.map_cons, List.nodup_cons] at hn
      exact hn.2
    have hp1 : p.1 ∉ rest.map Prod.fst := by
      simp only [List.map_cons, List.nodup_cons] at hn
      exact hn.1
    have hd2 : ∀ x ∈ rest, ∀ q ∈ init ++ [p], q.1 ≠ x.1 := by
      intro x hx q hq
      rcases List.mem_append.mp hq with hq | hq
      · exact hd x (by simp [hx]) q hq
      · simp only [List.mem_singleton] at hq
        subst hq
        intro he
        exact hp1 (he ▸ List.mem_map_of_mem Prod.fst hx)
    have := dictUpdate_fresh rest (init ++ [p]) hn2 hd2
    simp only [dictUpdate] at this
    rw [this, List.append_assoc, List.singleton_append]

theorem dictUpdate_nil (ps : PropMap) (hn : (ps.map Prod.fst).Nodup) :
    dictUpdate [] ps = ps := by
  simpa using dictUpdate_fresh ps [] hn (by simp)

theorem readPropStep_propNode (init : PropMap) (p : String × String) :
    readPropStep init (propNode p) = .ok (dictInsert p.1 p.2 init) := by
  simp [readPropStep, propNode, popStr, popReq, popAttr, AVal.asStr, Node.tag,
    Node.attrs, excBind_ok, excBind_err, pure, Except.pure]

theorem read_properties_fold : ∀ (ps : PropMap) (init : PropMap),
    List.foldlM readPropStep init (ps.map propNode) = .ok (dictUpdate init ps)
  | [], init => by simp [dictUpdate]; rfl
  | p :: rest, init => by
    rw [List.map_cons, List.foldlM_cons, readPropStep_propNode]
    show List.foldlM _ (dictInsert p.1 p.2 init) (rest.map propNode) = _
    rw [read_properties_fold rest (dictInsert p.1 p.2 init)]
    simp [dictUpdate]

theorem read_properties_propNodes (ps : PropMap) :
    read_properties (Node.mk "properties" [] (ps.map propNode) none) =
      .ok (dictUpdate [] ps) := by
  unfold read_properties
  simp [Node.tag, Node.attrs, Node.children, read_properties_fold ps []]

/-! ## Round-trip lemmas: colors -/

/-- A byte whose `hex(p)[2:].ljust(2, '0')` rendering is its genuine
two-digit hexadecimal form: 0, or at least 16 (one-digit nonzero bytes are
corrupted by the right-padding `ljust`). -/
def goodByte (b : Nat) : Bool := decide (b < 256) && (decide (b = 0) || decide (16 ≤ b))

theorem byteHex (p : Nat) (h : goodByte p = true) :
    ljust2 (pyHex p) = [Nat.digitChar (p / 16), Nat.digitChar (p % 16)] ∧
      unhexPair (Nat.digitChar (p / 16)) (Nat.digitChar (p % 16)) = some p ∧
      Nat.digitChar (p / 16) ≠ '#' := by
  have hb : p < 256 ∧ (p = 0 ∨ 16 ≤ p) := by
    simp only [goodByte, Bool.and_eq_true, Bool.or_eq_true, decide_eq_true_eq] at h
    exact h
  have key : ∀ q < 256, (q = 0 ∨ 16 ≤ q) →
      ljust2 (pyHex q) = [Nat.digitChar (q / 16), Nat.digitChar (q % 16)] ∧
        unhexPair (Nat.digitChar (q / 16)) (Nat.digitChar (q % 16)) = some q ∧
        Nat.digitChar (q / 16) ≠ '#' := by decide
  exact key p hb.1 hb.2

theorem from_rgb_to_rgb (a b c : Nat) (ha : goodByte a = true) (hb : goodByte b = true)
    (hc : goodByte c = true) : from_rgb (to_rgb (a, b, c)) = .ok (a, b, c) := by
  obtain ⟨ea, ua, na⟩ := byteHex a ha
  obtain ⟨eb, ub, _⟩ := byteHex b hb
  obtain ⟨ec, uc, _⟩ := byteHex c hc
  unfold to_rgb from_rgb
  simp only [ea, eb, ec]
  rw [show (String.mk
      ([Nat.digitChar (a / 16), Nat.digitChar (a % 16)] ++
        [Nat.digitChar (b / 16), Nat.digitChar (b % 16)] ++
        [Nat.digitChar (c / 16), Nat.digitChar (c % 16)])).toList =
      [Nat.digitChar (a / 16), Nat.digitChar (a % 16), Nat.digitChar (b / 16),
        Nat.digitChar (b % 16), Nat.digitChar (c / 16), Nat.digitChar (c % 16)] from rfl]
  rw [show ([Nat.digitChar (a / 16), Nat.digitChar (a % 16), Nat.digitChar (b / 16),
      Nat.digitChar (b % 16), Nat.digitChar (c / 16), Nat.digitChar (c % 16)].head? =
        some (Nat.digitChar (a / 16))) from rfl]
  rw [if_neg (by simpa using na)]
  simp only [ua, ub, uc]

/-! ## `dictGet` after inserts (for the last-one-wins law) -/

theorem dictGet_map_replace (k2 : String) (v : String) :
    ∀ l : PropMap, l.any (fun p => p.1 = k2) = true →
      dictGet k2 (l.map (fun p => if p.1 = k2 then (k2, v) else p)) = some v := by
  intro l
  induction l with
  | nil => simp
  | cons p rest ih =>
    intro hany
    by_cases hp : p.1 = k2
    · simp [dictGet, hp, List.find?]
    · simp only [List.any_cons, Bool.or_eq_true, decide_eq_true_eq] at hany
      rcases hany with h | h
      · exact absurd h hp
      · simp only [List.map_cons, if_neg hp, dictGet, List.find?]
        rw [show (decide (p.1 = k2)) = false from by simp [hp]]
        exact ih h

theorem dictGet_map_other (k k2 : String) (v : String) (hk : k2 ≠ k) :
    ∀ l : PropMap,
      dictGet k (l.map (fun p => if p.1 = k2 then (k2, v) else p)) = dictGet k l := by
  intro l
  induction l with
  | nil => simp
  | cons p rest ih =>
    by_cases hp : p.1 = k2
    · have hpk : ¬ p.1 = k := by rw [hp]; exact hk
      simp only [List.map_cons, if_pos hp, dictGet, List.find?]
      rw [show (decide (k2 = k)) = false from by simp [hk],
        show (decide (p.1 = k)) = false from by simp [hpk]]
      exact ih
    · simp only [List.map_cons, if_neg hp, dictGet, List.find?]
      cases hd : decide (p.1 = k) with
      | true => rfl
      | false => exact ih

theorem dictGet_dictInsert (l : PropMap) (k k2 v : String) :
    dictGet k (dictInsert k2 v l) = if k2 = k then some v else dictGet k l := by
  unfold dictInsert
  by_cases hex : l.any (fun p => p.1 = k2) = true
  · rw [if_pos hex]
    by_cases hk : k2 = k
    · subst hk
      rw [if_pos rfl, dictGet_map_replace k2 v l hex]
    · rw [if_neg hk, dictGet_map_other k k2 v hk l]
  · rw [if_neg hex]
    have hnone : l.find? (fun p => p.1 = k2) = none := by
      rw [List.find?_eq_none]
      intro p hp
      simp only [decide_eq_true_eq]
      intro he
      exact hex (List.any_eq_true.mpr ⟨p, hp, by simp [he]⟩)
    unfold dictGet
    rw [List.find?_append]
    by_cases hk : k2 = k
    · subst hk
      rw [hnone]
      simp [List.find?]
    · cases hfind : l.find? (fun p => p.1 = k) with
      | some q => simp [hfind, hk]
      | none =>
        simp only [hfind, Option.none_orElse, if_neg hk, List.find?]
        rw [show (decide (k2 = k)) = false from by simp [hk]]
        rfl

/-- The value of the LAST binding of `k` in document order, if any. -/
def lastVal (k : String) : List (String × String) → Option String
  | [] => none
  | p :: rest => (lastVal k rest).orElse (fun _ => if p.1 = k then some p.2 else none)

theorem dictGet_dictUpdate (k : String) :
    ∀ (ps init : PropMap),
      dictGet k (dictUpdate init ps) =
        (lastVal k ps).orElse (fun _ => dictGet k init)
  | [], init => by simp [dictUpdate, lastVal]
  | p :: rest, init => by
    simp only [dictUpdate, List.foldl_cons, lastVal]
    have ih := dictGet_dictUpdate k rest (dictInsert p.1 p.2 init)
    simp only [dictUpdate] at ih
    rw [ih, dictGet_dictInsert]
    cases hlv : lastVal k rest with
    | some w => simp
    | none =>
      by_cases hp : p.1 = k
      · simp [hp]
      · simp [hp]

/-! ## Valid field values (spec §3's types plus canonical-representation
conditions that Python's dicts and truthiness conventions impose) -/

def nodupKeysB (l : PropMap) : Bool := decide ((l.map Prod.fst).Nodup)

def Image.validB (img : Image) : Bool :=
  match img.trans with
  | none => true
  | some (r, g, b) => goodByte r && goodByte g && goodByte b

/-- The tile-properties list is strictly sorted by tile id (the canonical
form `sorted(tileset.tile_properties.items())` writes and a read produces). -/
def sortedTPB : List (Nat × PropMap) → Bool
  | [] => true
  | [_] => true
  | p :: q :: r => decide (p.1 < q.1) && sortedTPB (q :: r)

theorem sortedTPB_chain' : ∀ l : List (Nat × PropMap),
    sortedTPB l = true ↔ List.Chain' (fun p q => p.1 < q.1) l
  | [] => by simp [sortedTPB]
  | [p] => by simp [sortedTPB]
  | p :: q :: r => by
    rw [List.chain'_cons]
    simp only [sortedTPB, Bool.and_eq_true, decide_eq_true_eq]
    rw [sortedTPB_chain' (q :: r)]

def Tileset.validB (t : Tileset) : Bool :=
  match t.source with
  | some s => decide (s ≠ "")
  | none =>
    (match t.image with
     | none => true
     | some img => img.validB) &&
    sortedTPB t.tile_properties &&
    t.tile_properties.all (fun p => decide (p.2 ≠ []) && nodupKeysB p.2)

def MapObject.validB (tileSize : Nat → Option (Nat × Nat)) (o : MapObject) : Bool :=
  decide (o.name ≠ some "") && decide (o.otype ≠ some "") &&
    (if o.size = (0, 0) then
      decide (tileSize o.value = none ∨ tileSize o.value = some (0, 0))
    else true)

def TileLayer.validB (sz : Nat × Nat) (l : TileLayer) : Bool :=
  decide (l.data.length = sz.1 * sz.2) &&
    l.data.all (fun v => decide (v < 4294967296)) &&
    decide (l.encoding = some (some "base64")) &&
    (decide (l.compression = some none) || decide (l.compression = some (some "zlib")) ||
      decide (l.compression = some (some "gzip"))) &&
    decide (l.mtime = none) && nodupKeysB l.properties

def ObjectLayer.validB (tileSize : Nat → Option (Nat × Nat)) (l : ObjectLayer) : Bool :=
  nodupKeysB l.properties && l.objects.all (MapObject.validB tileSize)

def Layer.validB (m : Map) : Layer → Bool
  | .tiles l => l.validB m.size
  | .objects l => l.validB m.tileSizeOfGid

/-- Valid field values for a whole document. -/
def Map.validB (m : Map) : Bool :=
  nodupKeysB m.properties && m.tilesets.all Tileset.validB &&
    m.layers.all (Layer.validB m)

/-- The path `read_tileset` hands to the external resolver (`cls.open`). -/
def realSource (bp : Option String) (s : String) : Option String :=
  match bp with
  | none => if isAbs s then some s else none
  | some b => some (if b ≠ "" then pathJoin b s else s)

/-- The external-resolver contract for one tileset: an External tileset's
path resolves (spec §6), and opening it yields the same tileset this
document holds (the resolved file's `source` field is `None` until
`read_tileset` overwrites it). -/
def tilesetResolvedB (resolver : String → Except Err Tileset) (bp : Option String)
    (t : Tileset) : Bool :=
  match t.source with
  | none => true
  | some s =>
    match realSource bp s with
    | none => false
    | some rs => decide (resolver rs = .ok {t with source := none})

def Map.resolvedB (resolver : String → Except Err Tileset) (m : Map) : Bool :=
  m.tilesets.all (tilesetResolvedB resolver m.base_path)

/-! ## Round-trip lemmas: images -/

theorem ljust2_length (l : List Char) : 2 ≤ (ljust2 l).length := by
  unfold ljust2
  by_cases h : l.length < 2
  · rw [if_pos h]
    simp only [List.length_append, List.length_replicate]
    omega
  · rw [if_neg h]
    omega

theorem to_rgb_ne_empty (t : Nat × Nat × Nat) : to_rgb t ≠ "" := by
  obtain ⟨a, b, c⟩ := t
  intro h
  have hd : (ljust2 (pyHex a) ++ ljust2 (pyHex b) ++ ljust2 (pyHex c)).length =
      (("" : String).data).length := by
    rw [show ljust2 (pyHex a) ++ ljust2 (pyHex b) ++ ljust2 (pyHex c) =
      (to_rgb (a, b, c)).data from rfl, h]
  rw [show (("" : String).data) = [] from by decide] at hd
  simp only [List.length_append, List.length_nil] at hd
  have h1 := ljust2_length (pyHex a)
  omega

theorem read_image_write_image (img : Image) (hv : img.validB = true) :
    read_image (write_image img) = .ok img := by
  obtain ⟨src, tr, w, h⟩ := img
  cases tr with
  | none =>
    by_cases h2 : h = 0 <;> by_cases h1 : w = 0 <;>
      simp [read_image, write_image, popAttr, popStr, popReq, popNatD, AVal.asStr,
        AVal.asNat, Node.attrs, excBind_ok, excBind_err, pure, Except.pure, h1, h2]
  | some t =>
    obtain ⟨r, g, b⟩ := t
    have hg : goodByte r = true ∧ goodByte g = true ∧ goodByte b = true := by
      simp only [Image.validB, Bool.and_eq_true] at hv
      exact ⟨hv.1.1, hv.1.2, hv.2⟩
    by_cases h2 : h = 0 <;> by_cases h1 : w = 0 <;>
      simp [read_image, write_image, popAttr, popStr, popReq, popNatD, AVal.asStr,
        AVal.asNat, Node.attrs, excBind_ok, excBind_err, pure, Except.pure, h1, h2,
        to_rgb_ne_empty, from_rgb_to_rgb r g b hg.1 hg.2.1 hg.2.2]

/-! ## Round-trip lemmas: tilesets -/

theorem sortTileProps_sorted : ∀ l : List (Nat × PropMap),
    List.Chain' (fun p q => p.1 < q.1) l → sortTileProps l = l
  | [], _ => rfl
  | [p], _ => rfl
  | p :: q :: rest, h => by
    have hc := List.chain'_cons.mp h
    have ih := sortTileProps_sorted (q :: rest) hc.2
    simp only [sortTileProps, List.foldr_cons] at ih ⊢
    rw [ih, insertSortedTP]
    rw [if_pos (Nat.le_of_lt hc.1)]

/-- The `tile` element written for one tile with nonempty properties. -/
def tileNode (p : Nat × PropMap) : Node :=
  Node.mk "tile" [("id", AVal.i (p.1 : Int))] (append_properties p.2) none

theorem filterMap_tileNodes (l : List (Nat × PropMap)) (h : ∀ p ∈ l, p.2 ≠ []) :
    l.filterMap (fun p =>
      if p.2 ≠ [] then
        some (Node.mk "tile" [("id", AVal.i (p.1 : Int))] (append_properties p.2) none)
      else none) = l.map tileNode := by
  induction l with
  | nil => rfl
  | cons p rest ih =>
    rw [List.filterMap_cons, List.map_cons]
    rw [if_pos (h p (by simp))]
    rw [ih (fun q hq => h q (by simp [hq]))]
    rfl

/-- `append_properties` of a nonempty bag is one `properties` node whose
children are the `property` entries. -/
theorem append_properties_nonempty (props : PropMap) (h : props ≠ []) :
    append_properties props = [Node.mk "properties" [] (props.map propNode) none] := by
  unfold append_properties
  rw [if_neg h]
  rfl

theorem tilesetChildStep_tileNode (ts : Tileset) (p : Nat × PropMap)
    (hfresh : ∀ q ∈ ts.tile_properties, q.1 ≠ p.1)
    (hne : p.2 ≠ []) (hnd : nodupKeysB p.2 = true) :
    tilesetChildStep ts (tileNode p) =
      .ok {ts with tile_properties := ts.tile_properties ++ [p]} := by
  obtain ⟨id, props⟩ := p
  unfold tilesetChildStep tileNode
  rw [append_properties_nonempty props hne]
  have hany : ts.tile_properties.any (fun q => decide (q.1 = id)) = false := by
    rw [List.any_eq_false]
    intro q hq
    simpa using hfresh q hq
  simp [Node.tag, Node.attrs, Node.children, popNat, popReq, popAttr, AVal.asNat,
    excBind_ok, excBind_err, read_properties_propNodes, hany,
    dictUpdate_nil props (by simpa [nodupKeysB] using hnd), pure, Except.pure,
    Int.toNat_natCast]

theorem tilesetFold_tileNodes : ∀ (tp : List (Nat × PropMap)) (ts : Tileset),
    (∀ p ∈ tp, ∀ q ∈ ts.tile_properties, q.1 ≠ p.1) →
    List.Pairwise (fun p q => p.1 ≠ q.1) tp →
    (∀ p ∈ tp, p.2 ≠ [] ∧ nodupKeysB p.2 = true) →
    List.foldlM tilesetChildStep ts (tp.map tileNode) =
      .ok {ts with tile_properties := ts.tile_properties ++ tp}
  | [], ts, _, _, _ => by
    show pure ts = _
    rw [List.append_nil]
    rfl
  | p :: rest, ts, h1, h2, h3 => by
    rw [List.map_cons, List.foldlM_cons,
      tilesetChildStep_tileNode ts p (h1 p (by simp)) (h3 p (by simp)).1 (h3 p (by simp)).2]
    rw [excBind_ok]
    have h1' : ∀ x ∈ rest, ∀ q ∈ ts.tile_properties ++ [p], q.1 ≠ x.1 := by
      intro x hx q hq
      rcases List.mem_append.mp hq with hq | hq
      · exact h1 x (by simp [hx]) q hq
      · simp only [List.mem_singleton] at hq
        subst hq
        exact (List.pairwise_cons.mp h2).1 x hx
    have := tilesetFold_tileNodes rest {ts with tile_properties := ts.tile_properties ++ [p]}
      h1' (List.pairwise_cons.mp h2).2 (fun x hx => h3 x (by simp [hx]))
    rw [this]
    simp

theorem read_tileset_write_embedded (resolver : String → Except Err Tileset)
    (t : Tileset) (fg : Nat) (bp : Option String)
    (hsrc : t.source = none) (hv : t.validB = true) (hfg : fg ≠ 0) :
    read_tileset resolver (write_tileset t fg) bp = .ok (t, fg) := by
  obtain ⟨src, nm, ⟨tw, th⟩, mg, sp, img, tp⟩ := t
  simp only at hsrc
  subst hsrc
  simp only [Tileset.validB, Bool.and_eq_true] at hv
  have hsorted : List.Chain' (fun p q => p.1 < q.1) tp :=
    (sortedTPB_chain' tp).mp hv.1.2
  have hprops : ∀ p ∈ tp, p.2 ≠ [] ∧ nodupKeysB p.2 = true := by
    intro p hp
    have := hv.2
    simp only [List.all_eq_true] at this
    have h := this p hp
    simp only [Bool.and_eq_true, decide_eq_true_eq] at h
    exact ⟨h.1, h.2⟩
  have hpair : List.Pairwise (fun (p q : Nat × PropMap) => p.1 ≠ q.1) tp := by
    haveI : IsTrans (Nat × PropMap) (fun p q => p.1 < q.1) :=
      ⟨fun a b c h1 h2 => Nat.lt_trans h1 h2⟩
    have : List.Pairwise (fun (p q : Nat × PropMap) => p.1 < q.1) tp :=
      List.chain'_iff_pairwise.mp hsorted
    exact this.imp (fun h => Nat.ne_of_lt h)
  unfold write_tileset
  simp only [sortTileProps_sorted tp hsorted,
    filterMap_tileNodes tp (fun p hp => (hprops p hp).1), if_pos hfg]
  have hfold : ∀ (s : Option String) (n : String) (t2 : Nat × Nat) (m2 sp2 : Nat)
      (i2 : Option Image),
      List.foldlM tilesetChildStep
        { source := s, name := n, tile_size := t2, margin := m2, spacing := sp2,
          image := i2, tile_properties := [] }
        (tp.map tileNode) =
      .ok { source := s, name := n, tile_size := t2, margin := m2, spacing := sp2,
            image := i2, tile_properties := tp } := by
    intro s n t2 m2 sp2 i2
    simpa using tilesetFold_tileNodes tp
      { source := s, name := n, tile_size := t2, margin := m2, spacing := sp2,
        image := i2, tile_properties := [] } (by simp) hpair hprops
  rcases img with _ | i
  · by_cases hsp : sp = 0 <;> by_cases hmg : mg = 0 <;>
      simp [hsp, hmg, read_tileset, read_tileset_embedded, popAttr, popStr, popNat,
        popNatD, popReq, AVal.asStr, AVal.asNat, Node.attrs, Node.children,
        excBind_ok, excBind_err, pure, Except.pure, Int.toNat_natCast, hfold]
  · have hiv : i.validB = true := by simpa using hv.1.1
    have htag : Node.tag (write_image i) = "image" := by unfold write_image; rfl
    have himg : ∀ (m2 sp2 : Nat), tilesetChildStep
        { source := none, name := nm, tile_size := (tw, th), margin := m2,
          spacing := sp2, image := none, tile_properties := [] } (write_image i) =
        .ok { source := none, name := nm, tile_size := (tw, th), margin := m2,
              spacing := sp2, image := some i, tile_properties := [] } := by
      intro m2 sp2
      unfold tilesetChildStep
      rw [htag]
      simp [read_image_write_image i hiv, excBind_ok, pure, Except.pure]
    by_cases hsp : sp = 0 <;> by_cases hmg : mg = 0 <;>
      simp [hsp, hmg, read_tileset, read_tileset_embedded, popAttr, popStr, popNat,
        popNatD, popReq, AVal.asStr, AVal.asNat, Node.attrs, Node.children,
        excBind_ok, excBind_err, pure, Except.pure, Int.toNat_natCast,
        himg, hfold]

theorem read_tileset_write_external (resolver : String → Except Err Tileset)
    (t : Tileset) (fg : Nat) (bp : Option String) (s : String)
    (hsrc : t.source = some s) (hs : s ≠ "")
    (hres : tilesetResolvedB resolver bp t = true) (hfg : fg ≠ 0) :
    read_tileset resolver (write_tileset t fg) bp = .ok (t, fg) := by
  obtain ⟨src, nm, tsz, mg, sp, img, tp⟩ := t
  simp only at hsrc
  subst hsrc
  unfold tilesetResolvedB realSource at hres
  simp only at hres
  unfold write_tileset
  simp only [if_pos hfg]
  cases bp with
  | none =>
    cases hAbs : isAbs s with
    | false =>
      rw [hAbs] at hres
      simp at hres
    | true =>
      rw [hAbs] at hres
      simp only [if_true, decide_eq_true_eq] at hres
      simp [read_tileset, popAttr, AVal.truthy, hs, AVal.asStr, popNat, popReq,
        AVal.asNat, Node.attrs, excBind_ok, excBind_err, hAbs, hres, pure,
        Except.pure, Int.toNat_natCast]
  | some b =>
    by_cases hb : b = ""
    · simp only [hb, decide_eq_true_eq] at hres
      simp only [if_neg (by simp : ¬ ("" : String) ≠ "")] at hres
      simp [read_tileset, popAttr, AVal.truthy, hs, AVal.asStr, popNat, popReq,
        AVal.asNat, Node.attrs, excBind_ok, excBind_err, hb, hres, pure,
        Except.pure, Int.toNat_natCast]
    · simp only [decide_eq_true_eq] at hres
      rw [if_pos hb] at hres
      simp [read_tileset, popAttr, AVal.truthy, hs, AVal.asStr, popNat, popReq,
        AVal.asNat, Node.attrs, excBind_ok, excBind_err, hb, hres, pure,
        Except.pure, Int.toNat_natCast]

/-! ## Round-trip lemmas: tile layers -/

theorem flatMap_le32_bytes (data : List Nat) : ∀ x ∈ data.flatMap le32, x < 256 := by
  intro x hx
  rw [List.mem_flatMap] at hx
  obtain ⟨v, _, hcase⟩ := hx
  simp only [le32, List.mem_cons, List.not_mem_nil, or_false] at hcase
  rcases hcase with h | h | h | h <;> subst h <;> omega

theorem packLE32_ok (data : List Nat) (h : ∀ v ∈ data, v < 4294967296) :
    packLE32 data = .ok (data.flatMap le32) := by
  unfold packLE32
  rw [if_pos]
  rw [List.all_eq_true]
  intro v hv
  simpa using h v hv

/-- Reading back the `properties` child emitted for a tile layer. -/
theorem tileLayerChildStep_props (C : ExtCodecs) (sz : Nat × Nat) (l1 : TileLayer)
    (b : Bool) (props : PropMap) :
    tileLayerChildStep C sz (l1, b) (Node.mk "properties" [] (props.map propNode) none) =
      .ok ({l1 with properties := dictUpdate l1.properties (dictUpdate [] props)}, b) := by
  unfold tileLayerChildStep
  simp [Node.tag, read_properties_propNodes, excBind_ok, pure, Except.pure]

theorem map_propNode (props : PropMap) :
    props.map (fun p =>
      Node.mk "property" [("name", AVal.s p.1), ("value", AVal.s p.2)] [] none) =
      props.map propNode := rfl

theorem tile_layer_roundtrip (C : ExtCodecs) (hC : ExtCodecsOk C) (now : Nat)
    (sz : Nat × Nat) (l : TileLayer) (hv : l.validB sz = true) :
    (do
      let n ← tile_layer_to_element C now sz l
      tile_layer_from_element C n sz) = .ok l := by
  obtain ⟨w, h⟩ := sz
  obtain ⟨nm, op, vis, data, enc, cmp, mt, props⟩ := l
  simp only [TileLayer.validB, Bool.and_eq_true, Bool.or_eq_true, decide_eq_true_eq] at hv
  obtain ⟨⟨⟨⟨⟨hlen, hdata⟩, henc⟩, hcmp⟩, hmt⟩, hnd⟩ := hv
  subst henc hmt
  have hdata' : ∀ v ∈ data, v < 4294967296 := by
    rw [List.all_eq_true] at hdata
    intro v hv2
    simpa using hdata v hv2
  have hpack := packLE32_ok data hdata'
  have hDU : dictUpdate [] (dictUpdate [] props) = props := by
    rw [dictUpdate_nil props (by simpa [nodupKeysB] using hnd)]
    exact dictUpdate_nil props (by simpa [nodupKeysB] using hnd)
  have hunpack := tileDataFromBytes_flatMap_le32 data hdata'
  have hsetl : setLayerData (w, h) data = .ok data := by
    unfold setLayerData
    rw [if_pos]
    simpa using hlen
  rcases hcmp with (hcmp | hcmp) | hcmp <;> subst hcmp
  · -- compression None: no transform
    have hb64 := b64decode_b64encode (data.flatMap le32) (flatMap_le32_bytes data)
    rcases vis with _ | _ <;> by_cases hop : op = 1 <;> by_cases hpr : props = [] <;>
      simp [tile_layer_to_element, tile_layer_to_element_traced, tile_layer_from_element,
        hpack, append_properties, hpr, hop, popStr, popQD, popIntD, popNat, popNatD,
        popReq, popAttr, AVal.asStr, AVal.asQ, AVal.asNat, AVal.asInt, Node.attrs,
        Node.children, Node.tag, Node.text, excBind_ok, excBind_err, pure, Except.pure,
        Int.toNat_natCast, map_propNode, read_properties_propNodes, hDU,
        tileLayerChildStep,
        hb64, hunpack, hsetl, append_properties_nonempty props]
  · -- compression zlib
    have hb64 := b64decode_b64encode (C.zlibCompress (data.flatMap le32))
      (hC.zlib_bytes _ (flatMap_le32_bytes data))
    have hzl := hC.zlib_roundtrip (data.flatMap le32)
    rcases vis with _ | _ <;> by_cases hop : op = 1 <;> by_cases hpr : props = [] <;>
      simp [tile_layer_to_element, tile_layer_to_element_traced, tile_layer_from_element,
        hpack, append_properties, hpr, hop, popStr, popQD, popIntD, popNat, popNatD,
        popReq, popAttr, AVal.asStr, AVal.asQ, AVal.asNat, AVal.asInt, Node.attrs,
        Node.children, Node.tag, Node.text, excBind_ok, excBind_err, pure, Except.pure,
        Int.toNat_natCast, map_propNode, read_properties_propNodes, hDU,
        tileLayerChildStep,
        hb64, hzl, hunpack, hsetl, append_properties_nonempty props]
  · -- compression gzip
    have hb64 := b64decode_b64encode (C.gzipCompress now (data.flatMap le32))
      (hC.gzip_bytes now _ (flatMap_le32_bytes data))
    have hgz := hC.gzip_roundtrip now (data.flatMap le32)
    rcases vis with _ | _ <;> by_cases hop : op = 1 <;> by_cases hpr : props = [] <;>
      simp [tile_layer_to_element, tile_layer_to_element_traced, tile_layer_from_element,
        hpack, append_properties, hpr, hop, popStr, popQD, popIntD, popNat, popNatD,
        popReq, popAttr, AVal.asStr, AVal.asQ, AVal.asNat, AVal.asInt, Node.attrs,
        Node.children, Node.tag, Node.text, excBind_ok, excBind_err, pure, Except.pure,
        Int.toNat_natCast, map_propNode, read_properties_propNodes, hDU,
        tileLayerChildStep,
        hb64, hgz, hunpack, hsetl, append_properties_nonempty props]

/-! ## Round-trip lemmas: object layers -/

theorem objectLayerChildStep_objectNode (m : Map) (l1 : ObjectLayer) (o : MapObject)
    (ho : MapObject.validB m.tileSizeOfGid o = true) :
    objectLayerChildStep m l1 (objectNode m o) =
      .ok {l1 with objects := l1.objects ++ [o]} := by
  obtain ⟨⟨x, y⟩, ⟨sw, sh⟩, value, nm, ot⟩ := o
  simp only [MapObject.validB, Bool.and_eq_true, decide_eq_true_eq] at ho
  obtain ⟨⟨hnm, hot⟩, hsz⟩ := ho
  by_cases hcond : ((sw, sh) : Nat × Nat) ≠ (0, 0) ∧
      ¬ (m.tileSizeOfGid value = some (sw, sh))
  · have hseg : objectSizeAttrs m ⟨(x, y), (sw, sh), value, nm, ot⟩ =
        [("width", AVal.i (sw : Int)), ("height", AVal.i (sh : Int))] := by
      unfold objectSizeAttrs
      rw [if_pos hcond]
    have heff : mkMapObject m.tileSizeOfGid (x, y) (some (sw, sh)) value nm ot =
        ⟨(x, y), (sw, sh), value, nm, ot⟩ := by
      unfold mkMapObject
      simp only [Option.getD_some]
      rw [if_pos hcond.1]
    rcases nm with _ | n <;> rcases ot with _ | t
    · by_cases hval : value = 0
      · simp only [hval] at hseg heff
        simp only [objectLayerChildStep, objectNode, Node.tag, Node.attrs, hseg,
          popInt, popAttr, popReq, AVal.asInt, AVal.asNat, AVal.asStr, excBind_ok,
          excBind_err, excBind_pure, pure_eq_ok, heff, reduceIte,
          List.cons_append, List.nil_append, List.append_nil, Int.toNat_natCast,
          Int.natCast_nonneg, if_true, if_false, String.reduceEq, reduceCtorEq,
          ne_eq, not_false_eq_true, Bool.false_eq_true, ite_not, hval]
      · simp only [objectLayerChildStep, objectNode, Node.tag, Node.attrs, hseg,
          popInt, popAttr, popReq, AVal.asInt, AVal.asNat, AVal.asStr, excBind_ok,
          excBind_err, excBind_pure, pure_eq_ok, heff, reduceIte,
          List.cons_append, List.nil_append, List.append_nil, Int.toNat_natCast,
          Int.natCast_nonneg, if_true, if_false, String.reduceEq, reduceCtorEq,
          ne_eq, not_false_eq_true, Bool.false_eq_true, ite_not, hval]
    · have ht : ¬ t = "" := by simpa using hot
      by_cases hval : value = 0
      · simp only [hval] at hseg heff
        simp only [objectLayerChildStep, objectNode, Node.tag, Node.attrs, hseg,
          popInt, popAttr, popReq, AVal.asInt, AVal.asNat, AVal.asStr, excBind_ok,
          excBind_err, excBind_pure, pure_eq_ok, heff, reduceIte,
          List.cons_append, List.nil_append, List.append_nil, Int.toNat_natCast,
          Int.natCast_nonneg, if_true, if_false, String.reduceEq, reduceCtorEq,
          ne_eq, not_false_eq_true, Bool.false_eq_true, ite_not, hval, ht]
      · simp only [objectLayerChildStep, objectNode, Node.tag, Node.attrs, hseg,
          popInt, popAttr, popReq, AVal.asInt, AVal.asNat, AVal.asStr, excBind_ok,
          excBind_err, excBind_pure, pure_eq_ok, heff, reduceIte,
          List.cons_append, List.nil_append, List.append_nil, Int.toNat_natCast,
          Int.natCast_nonneg, if_true, if_false, String.reduceEq, reduceCtorEq,
          ne_eq, not_false_eq_true, Bool.false_eq_true, ite_not, hval, ht]
    · have hn : ¬ n = "" := by simpa using hnm
      by_cases hval : value = 0
      · simp only [hval] at hseg heff
        simp only [objectLayerChildStep, objectNode, Node.tag, Node.attrs, hseg,
          popInt, popAttr, popReq, AVal.asInt, AVal.asNat, AVal.asStr, excBind_ok,
          excBind_err, excBind_pure, pure_eq_ok, heff, reduceIte,
          List.cons_append, List.nil_append, List.append_nil, Int.toNat_natCast,
          Int.natCast_nonneg, if_true, if_false, String.reduceEq, reduceCtorEq,
          ne_eq, not_false_eq_true, Bool.false_eq_true, ite_not, hval, hn]
      · simp only [objectLayerChildStep, objectNode, Node.tag, Node.attrs, hseg,
          popInt, popAttr, popReq, AVal.asInt, AVal.asNat, AVal.asStr, excBind_ok,
          excBind_err, excBind_pure, pure_eq_ok, heff, reduceIte,
          List.cons_append, List.nil_append, List.append_nil, Int.toNat_natCast,
          Int.natCast_nonneg, if_true, if_false, String.reduceEq, reduceCtorEq,
          ne_eq, not_false_eq_true, Bool.false_eq_true, ite_not, hval, hn]
    · have hn : ¬ n = "" := by simpa using hnm
      have ht : ¬ t = "" := by simpa using hot
      by_cases hval : value = 0
      · simp only [hval] at hseg heff
        simp only [objectLayerChildStep, objectNode, Node.tag, Node.attrs, hseg,
          popInt, popAttr, popReq, AVal.asInt, AVal.asNat, AVal.asStr, excBind_ok,
          excBind_err, excBind_pure, pure_eq_ok, heff, reduceIte,
          List.cons_append, List.nil_append, List.append_nil, Int.toNat_natCast,
          Int.natCast_nonneg, if_true, if_false, String.reduceEq, reduceCtorEq,
          ne_eq, not_false_eq_true, Bool.false_eq_true, ite_not, hval, hn, ht]
      · simp only [objectLayerChildStep, objectNode, Node.tag, Node.attrs, hseg,
          popInt, popAttr, popReq, AVal.asInt, AVal.asNat, AVal.asStr, excBind_ok,
          excBind_err, excBind_pure, pure_eq_ok, heff, reduceIte,
          List.cons_append, List.nil_append, List.append_nil, Int.toNat_natCast,
          Int.natCast_nonneg, if_true, if_false, String.reduceEq, reduceCtorEq,
          ne_eq, not_false_eq_true, Bool.false_eq_true, ite_not, hval, hn, ht]
  · have hseg : objectSizeAttrs m ⟨(x, y), (sw, sh), value, nm, ot⟩ = [] := by
      unfold objectSizeAttrs
      rw [if_neg hcond]
    have heff : mkMapObject m.tileSizeOfGid (x, y) none value nm ot =
        ⟨(x, y), (sw, sh), value, nm, ot⟩ := by
      unfold mkMapObject
      simp only [Option.getD_none]
      push_neg at hcond
      by_cases h0 : ((sw, sh) : Nat × Nat) = (0, 0)
      · rw [if_pos h0] at hsz
        rw [if_neg (by simp)]
        simp only [decide_eq_true_eq] at hsz
        rcases hsz with hsz | hsz <;> rw [hsz] <;> simp [h0]
      · have := hcond h0
        rw [if_neg (by simp), this]
        rfl
    rcases nm with _ | n <;> rcases ot with _ | t
    · by_cases hval : value = 0
      · simp only [hval] at hseg heff
        simp only [objectLayerChildStep, objectNode, Node.tag, Node.attrs, hseg,
          popInt, popAttr, popReq, AVal.asInt, AVal.asNat, AVal.asStr, excBind_ok,
          excBind_err, excBind_pure, pure_eq_ok, heff, reduceIte,
          List.cons_append, List.nil_append, List.append_nil, Int.toNat_natCast,
          Int.natCast_nonneg, if_true, if_false, String.reduceEq, reduceCtorEq,
          ne_eq, not_false_eq_true, Bool.false_eq_true, ite_not, hval]
      · simp only [objectLayerChildStep, objectNode, Node.tag, Node.attrs, hseg,
          popInt, popAttr, popReq, AVal.asInt, AVal.asNat, AVal.asStr, excBind_ok,
          excBind_err, excBind_pure, pure_eq_ok, heff, reduceIte,
          List.cons_append, List.nil_append, List.append_nil, Int.toNat_natCast,
          Int.natCast_nonneg, if_true, if_false, String.reduceEq, reduceCtorEq,
          ne_eq, not_false_eq_true, Bool.false_eq_true, ite_not, hval]
    · have ht : ¬ t = "" := by simpa using hot
      by_cases hval : value = 0
      · simp only [hval] at hseg heff
        simp only [objectLayerChildStep, objectNode, Node.tag, Node.attrs, hseg,
          popInt, popAttr, popReq, AVal.asInt, AVal.asNat, AVal.asStr, excBind_ok,
          excBind_err, excBind_pure, pure_eq_ok, heff, reduceIte,
          List.cons_append, List.nil_append, List.append_nil, Int.toNat_natCast,
          Int.natCast_nonneg, if_true, if_false, String.reduceEq, reduceCtorEq,
          ne_eq, not_false_eq_true, Bool.false_eq_true, ite_not, hval, ht]
      · simp only [objectLayerChildStep, objectNode, Node.tag, Node.attrs, hseg,
          popInt, popAttr, popReq, AVal.asInt, AVal.asNat, AVal.asStr, excBind_ok,
          excBind_err, excBind_pure, pure_eq_ok, heff, reduceIte,
          List.cons_append, List.nil_append, List.append_nil, Int.toNat_natCast,
          Int.natCast_nonneg, if_true, if_false, String.reduceEq, reduceCtorEq,
          ne_eq, not_false_eq_true, Bool.false_eq_true, ite_not, hval, ht]
    · have hn : ¬ n = "" := by simpa using hnm
      by_cases hval : value = 0
      · simp only [hval] at hseg heff
        simp only [objectLayerChildStep, objectNode, Node.tag, Node.attrs, hseg,
          popInt, popAttr, popReq, AVal.asInt, AVal.asNat, AVal.asStr, excBind_ok,
          excBind_err, excBind_pure, pure_eq_ok, heff, reduceIte,
          List.cons_append, List.nil_append, List.append_nil, Int.toNat_natCast,
          Int.natCast_nonneg, if_true, if_false, String.reduceEq, reduceCtorEq,
          ne_eq, not_false_eq_true, Bool.false_eq_true, ite_not, hval, hn]
      · simp only [objectLayerChildStep, objectNode, Node.tag, Node.attrs, hseg,
          popInt, popAttr, popReq, AVal.asInt, AVal.asNat, AVal.asStr, excBind_ok,
          excBind_err, excBind_pure, pure_eq_ok, heff, reduceIte,
          List.cons_append, List.nil_append, List.append_nil, Int.toNat_natCast,
          Int.natCast_nonneg, if_true, if_false, String.reduceEq, reduceCtorEq,
          ne_eq, not_false_eq_true, Bool.false_eq_true, ite_not, hval, hn]
    · have hn : ¬ n = "" := by simpa using hnm
      have ht : ¬ t = "" := by simpa using hot
      by_cases hval : value = 0
      · simp only [hval] at hseg heff
        simp only [objectLayerChildStep, objectNode, Node.tag, Node.attrs, hseg,
          popInt, popAttr, popReq, AVal.asInt, AVal.asNat, AVal.asStr, excBind_ok,
          excBind_err, excBind_pure, pure_eq_ok, heff, reduceIte,
          List.cons_append, List.nil_append, List.append_nil, Int.toNat_natCast,
          Int.natCast_nonneg, if_true, if_false, String.reduceEq, reduceCtorEq,
          ne_eq, not_false_eq_true, Bool.false_eq_true, ite_not, hval, hn, ht]
      · simp only [objectLayerChildStep, objectNode, Node.tag, Node.attrs, hseg,
          popInt, popAttr, popReq, AVal.asInt, AVal.asNat, AVal.asStr, excBind_ok,
          excBind_err, excBind_pure, pure_eq_ok, heff, reduceIte,
          List.cons_append, List.nil_append, List.append_nil, Int.toNat_natCast,
          Int.natCast_nonneg, if_true, if_false, String.reduceEq, reduceCtorEq,
          ne_eq, not_false_eq_true, Bool.false_eq_true, ite_not, hval, hn, ht]

theorem objectLayerChildStep_props (m : Map) (l1 : ObjectLayer) (props : PropMap) :
    objectLayerChildStep m l1 (Node.mk "properties" [] (props.map propNode) none) =
      .ok {l1 with properties := dictUpdate l1.properties (dictUpdate [] props)} := by
  unfold objectLayerChildStep
  simp [Node.tag, read_properties_propNodes, excBind_ok, pure, Except.pure]

theorem objectFold (m : Map) : ∀ (os : List MapObject) (l1 : ObjectLayer),
    (∀ o ∈ os, MapObject.validB m.tileSizeOfGid o = true) →
    List.foldlM (objectLayerChildStep m) l1 (os.map (objectNode m)) =
      .ok {l1 with objects := l1.objects ++ os}
  | [], l1, _ => by
    show pure l1 = _
    rw [List.append_nil]
    rfl
  | o :: rest, l1, h => by
    rw [List.map_cons, List.foldlM_cons,
      objectLayerChildStep_objectNode m l1 o (h o (by simp)), excBind_ok]
    rw [objectFold m rest {l1 with objects := l1.objects ++ [o]}
      (fun x hx => h x (by simp [hx]))]
    simp

theorem objectNode_congr (m1 m2 : Map) (o : MapObject)
    (h : m1.tileSizeOfGid = m2.tileSizeOfGid) : objectNode m1 o = objectNode m2 o := by
  unfold objectNode objectSizeAttrs
  rw [h]

theorem object_layer_roundtrip (mw mr : Map) (l : ObjectLayer)
    (hsz : mr.size = mw.size) (hts : mr.tileSizeOfGid = mw.tileSizeOfGid)
    (hv : l.validB mw.tileSizeOfGid = true) :
    object_layer_from_element (object_layer_to_element mw l) mr = .ok l := by
  obtain ⟨nm, op, vis, os, props⟩ := l
  simp only [ObjectLayer.validB, Bool.and_eq_true] at hv
  obtain ⟨hnd, hos⟩ := hv
  have hos' : ∀ o ∈ os, MapObject.validB mr.tileSizeOfGid o = true := by
    rw [hts]
    rw [List.all_eq_true] at hos
    exact fun o ho => hos o ho
  have hDU : dictUpdate [] (dictUpdate [] props) = props := by
    rw [dictUpdate_nil props (by simpa [nodupKeysB] using hnd)]
    exact dictUpdate_nil props (by simpa [nodupKeysB] using hnd)
  have hnode : object_layer_to_element mw ⟨nm, op, vis, os, props⟩ =
      Node.mk "objectgroup"
        ([("name", AVal.s nm), ("width", AVal.i (mr.size.1 : Int)),
          ("height", AVal.i (mr.size.2 : Int))] ++
          (if vis = false then [("visible", AVal.i 0)] else []) ++
          (if op ≠ 1 then [("opacity", AVal.q op)] else []))
        (append_properties props ++ os.map (objectNode mr)) none := by
    unfold object_layer_to_element
    rw [← hsz, List.map_congr_left (fun o _ => objectNode_congr mw mr o hts.symm)]
  rw [hnode]
  have hfold : ∀ (n2 : String) (o2 : Rat) (v2 : Bool),
      List.foldlM (objectLayerChildStep mr)
        (⟨n2, o2, v2, [], []⟩ : ObjectLayer) (os.map (objectNode mr)) =
        .ok ⟨n2, o2, v2, os, []⟩ := by
    intro n2 o2 v2
    simpa using objectFold mr os ⟨n2, o2, v2, [], []⟩ hos'
  have hfold2 : ∀ (n2 : String) (o2 : Rat) (v2 : Bool) (p2 : PropMap),
      List.foldlM (objectLayerChildStep mr)
        (⟨n2, o2, v2, [], p2⟩ : ObjectLayer) (os.map (objectNode mr)) =
        .ok ⟨n2, o2, v2, os, p2⟩ := by
    intro n2 o2 v2 p2
    simpa using objectFold mr os ⟨n2, o2, v2, [], p2⟩ hos'
  by_cases hpr : props = []
  · rcases vis with _ | _ <;> by_cases hop : op = 1 <;>
      simp [object_layer_from_element, hpr, hop, popStr, popQD, popIntD, popNat,
        popReq, popAttr, AVal.asStr, AVal.asQ, AVal.asNat, AVal.asInt, Node.attrs,
        Node.children, Node.tag, excBind_ok, excBind_err, excBind_pure, pure_eq_ok,
        Int.toNat_natCast, append_properties, hfold2]
  · rcases vis with _ | _ <;> by_cases hop : op = 1 <;>
      simp [object_layer_from_element, append_properties_nonempty props hpr, hop,
        popStr, popQD, popIntD, popNat, popReq, popAttr, AVal.asStr, AVal.asQ,
        AVal.asNat, AVal.asInt, Node.attrs, Node.children, Node.tag, excBind_ok,
        excBind_err, excBind_pure, pure_eq_ok, Int.toNat_natCast,
        objectLayerChildStep_props, hDU, hfold2]

/-! ## Round-trip lemmas: whole documents -/


theorem tile_layer_to_element_ok_shape (C : ExtCodecs) (now : Nat) (sz : Nat × Nat)
    (l : TileLayer) (n : Node) (h : tile_layer_to_element C now sz l = .ok n) :
    ∃ a c, n = Node.mk "layer" a c none := by
  unfold tile_layer_to_element tile_layer_to_element_traced at h
  rcases hp : packLE32 l.data with e | packed <;> rw [hp] at h
  · simp at h
  · simp only at h
    split at h
    · split at h
      · simp only [Except.ok.injEq] at h
        exact ⟨_, _, h.symm⟩
      · simp at h
    · split at h
      · split at h
        · simp only [Except.ok.injEq] at h
          exact ⟨_, _, h.symm⟩
        · simp at h
      · split at h
        · simp at h
        · split at h
          · simp only [Except.ok.injEq] at h
            exact ⟨_, _, h.symm⟩
          · simp at h

theorem mapChildStep_props (C : ExtCodecs) (resolver : String → Except Err Tileset)
    (m : Map) (props : PropMap) :
    mapChildStep C resolver m (Node.mk "properties" [] (props.map propNode) none) =
      .ok {m with properties := dictUpdate m.properties (dictUpdate [] props)} := by
  unfold mapChildStep
  simp [Node.tag, read_properties_propNodes, excBind_ok, pure, Except.pure]

theorem write_tileset_tag (t : Tileset) (fg : Nat) :
    (write_tileset t fg).tag = "tileset" := by
  unfold write_tileset
  cases t.source <;> rfl

theorem mapChildStep_tileset (C : ExtCodecs) (resolver : String → Except Err Tileset)
    (m : Map) (t : Tileset) (fg : Nat)
    (hread : read_tileset resolver (write_tileset t fg) m.base_path = .ok (t, fg))
    (hfg : firstGidOf (m.tilesets ++ [t]) m.tilesets.length = fg) :
    mapChildStep C resolver m (write_tileset t fg) =
      .ok {m with tilesets := m.tilesets ++ [t]} := by
  unfold mapChildStep
  rw [write_tileset_tag]
  have hlen : (m.tilesets ++ [t]).length - 1 = m.tilesets.length := by simp
  simp only [reduceIte, String.reduceEq, hread, excBind_ok, hlen, hfg]
  simp [excBind_ok, pure, Except.pure]

theorem mapChildStep_tileLayer (C : ExtCodecs) (resolver : String → Except Err Tileset)
    (m : Map) (n : Node) (l : TileLayer)
    (hshape : ∃ a c, n = Node.mk "layer" a c none)
    (hread : tile_layer_from_element C n m.size = .ok l) :
    mapChildStep C resolver m n = .ok {m with layers := m.layers ++ [Layer.tiles l]} := by
  obtain ⟨a, c, rfl⟩ := hshape
  unfold mapChildStep
  simp [Node.tag, hread, excBind_ok, pure, Except.pure]

theorem mapChildStep_objLayer (C : ExtCodecs) (resolver : String → Except Err Tileset)
    (m mw : Map) (l : ObjectLayer)
    (hsz : m.size = mw.size) (hts : m.tileSizeOfGid = mw.tileSizeOfGid)
    (hv : l.validB mw.tileSizeOfGid = true) :
    mapChildStep C resolver m (object_layer_to_element mw l) =
      .ok {m with layers := m.layers ++ [Layer.objects l]} := by
  have htag : (object_layer_to_element mw l).tag = "objectgroup" := by
    unfold object_layer_to_element
    rfl
  have hread := object_layer_roundtrip mw m l hsz hts hv
  unfold mapChildStep
  rw [htag]
  simp [hread, excBind_ok, pure, Except.pure]

theorem firstGidOf_append_left (pre : List Tileset) (suf : List Tileset) :
    firstGidOf (pre ++ suf) pre.length = 1 + ((pre.map Tileset.numTiles).sum) := by
  unfold firstGidOf
  rw [List.take_left]

theorem mapFold_tilesets (C : ExtCodecs) (resolver : String → Except Err Tileset) :
    ∀ (suf pre : List Tileset) (m : Map),
    m.tilesets = pre →
    (∀ t ∈ suf, t.validB = true) →
    (∀ t ∈ suf, tilesetResolvedB resolver m.base_path t = true) →
    List.foldlM (mapChildStep C resolver) m
      (suf.mapIdx (fun j t => write_tileset t (firstGidOf (pre ++ suf) (pre.length + j)))) =
      .ok {m with tilesets := pre ++ suf}
  | [], pre, m, hm, _, _ => by
    show pure m = _
    rw [List.append_nil, ← hm]
    rfl
  | t :: rest, pre, m, hm, hvv, hrr => by
    rw [List.mapIdx_cons]
    have hfg1 : firstGidOf (pre ++ t :: rest) (pre.length + 0) =
        1 + (pre.map Tileset.numTiles).sum := by
      rw [Nat.add_zero]
      exact firstGidOf_append_left pre (t :: rest)
    rw [List.foldlM_cons, hfg1]
    have hne : 1 + (pre.map Tileset.numTiles).sum ≠ 0 := by omega
    have hread : read_tileset resolver
        (write_tileset t (1 + (pre.map Tileset.numTiles).sum)) m.base_path =
        .ok (t, 1 + (pre.map Tileset.numTiles).sum) := by
      cases hsrc : t.source with
      | none =>
        exact read_tileset_write_embedded resolver t _ m.base_path hsrc
          (hvv t (by simp)) hne
      | some s =>
        have hs : s ≠ "" := by
          have := hvv t (by simp)
          unfold Tileset.validB at this
          rw [hsrc] at this
          simpa using this
        exact read_tileset_write_external resolver t _ m.base_path s hsrc hs
          (hrr t (by simp)) hne
    have hfg2 : firstGidOf (m.tilesets ++ [t]) m.tilesets.length =
        1 + (pre.map Tileset.numTiles).sum := by
      rw [hm]
      exact firstGidOf_append_left pre [t]
    rw [mapChildStep_tileset C resolver m t _ hread hfg2, excBind_ok]
    have harg : (rest.mapIdx fun i t2 =>
        write_tileset t2 (firstGidOf (pre ++ t :: rest) (pre.length + (i + 1)))) =
        rest.mapIdx fun j t2 =>
          write_tileset t2 (firstGidOf ((pre ++ [t]) ++ rest) ((pre ++ [t]).length + j)) := by
      have hl : (pre ++ [t]) ++ rest = pre ++ t :: rest := by
        rw [List.append_assoc, List.singleton_append]
      have : (fun i t2 =>
          write_tileset t2 (firstGidOf (pre ++ t :: rest) (pre.length + (i + 1)))) =
          fun j t2 =>
            write_tileset t2 (firstGidOf ((pre ++ [t]) ++ rest) ((pre ++ [t]).length + j)) := by
        funext i t2
        rw [hl]
        congr 2
        simp
        omega
      rw [this]
    rw [harg]
    have := mapFold_tilesets C resolver rest (pre ++ [t])
      {m with tilesets := m.tilesets ++ [t]}
      (by rw [hm]) (fun x hx => hvv x (by simp [hx]))
      (fun x hx => hrr x (by simp [hx]))
    rw [hm] at this
    rw [hm, this]
    simp [List.append_assoc]

theorem mapFold_layers (C : ExtCodecs) (hC : ExtCodecsOk C)
    (resolver : String → Except Err Tileset) (now : Nat) (mw : Map) :
    ∀ (ls : List Layer) (m : Map),
    m.size = mw.size → m.tileSizeOfGid = mw.tileSizeOfGid →
    (∀ l ∈ ls, Layer.validB mw l = true) →
    (do
      let nodes ← ls.mapM (layer_to_element C now mw)
      List.foldlM (mapChildStep C resolver) m nodes) =
      .ok {m with layers := m.layers ++ ls}
  | [], m, _, _, _ => by
    show (do
      let nodes ← (pure [] : Except Err (List Node))
      List.foldlM (mapChildStep C resolver) m nodes) = _
    rw [excBind_pure, List.append_nil]
    rfl
  | l :: rest, m, h1, h2, hv => by
    rw [List.mapM_cons]
    cases l with
    | tiles tl =>
      have hvt : tl.validB mw.size = true := by
        have := hv (Layer.tiles tl) (by simp)
        simpa [Layer.validB] using this
      have hrt := tile_layer_roundtrip C hC now mw.size tl hvt
      cases hw : tile_layer_to_element C now mw.size tl with
      | error e =>
        rw [hw] at hrt
        simp [excBind_err] at hrt
      | ok n =>
        rw [hw, excBind_ok] at hrt
        have hshape := tile_layer_to_element_ok_shape C now mw.size tl n hw
        have hlw : layer_to_element C now mw (Layer.tiles tl) = .ok n := hw
        have hstep := mapChildStep_tileLayer C resolver m n tl hshape (by rw [h1]; exact hrt)
        have ih := mapFold_layers C hC resolver now mw rest
          {m with layers := m.layers ++ [Layer.tiles tl]} h1 h2
          (fun x hx => hv x (by simp [hx]))
        simp only [hlw, excBind_ok]
        cases hbs : rest.mapM (layer_to_element C now mw) with
        | error e =>
          rw [hbs] at ih
          simp [excBind_err] at ih
        | ok bs =>
          rw [hbs] at ih
          rw [excBind_ok] at ih
          rw [excBind_ok, excBind_pure, List.foldlM_cons, hstep, excBind_ok, ih]
          simp
    | objects ol =>
      have hvo : ol.validB mw.tileSizeOfGid = true := by
        have := hv (Layer.objects ol) (by simp)
        simpa [Layer.validB] using this
      have hstep := mapChildStep_objLayer C resolver m mw ol h1 h2 hvo
      have hlw : layer_to_element C now mw (Layer.objects ol) =
          .ok (object_layer_to_element mw ol) := rfl
      have ih := mapFold_layers C hC resolver now mw rest
        {m with layers := m.layers ++ [Layer.objects ol]} h1 h2
        (fun x hx => hv x (by simp [hx]))
      simp only [hlw, excBind_ok]
      cases hbs : rest.mapM (layer_to_element C now mw) with
      | error e =>
        rw [hbs] at ih
        simp [excBind_err] at ih
      | ok bs =>
        rw [hbs] at ih
        rw [excBind_ok] at ih
        rw [excBind_ok, excBind_pure, List.foldlM_cons, hstep, excBind_ok, ih]
        simp


theorem tileSizeOfGid_eq_of_tilesets_eq (m1 m2 : Map) (h : m1.tilesets = m2.tilesets) :
    m1.tileSizeOfGid = m2.tileSizeOfGid := by
  funext g
  unfold Map.tileSizeOfGid
  rw [h]

theorem read_map_write_map (C : ExtCodecs) (hC : ExtCodecsOk C)
    (resolver : String → Except Err Tileset) (now : Nat) (m : Map)
    (hv : m.validB = true) (hres : m.resolvedB resolver = true) :
    (do
      let n ← write_map C now m
      read_map C resolver n m.base_path) = .ok m := by
  obtain ⟨⟨w, h⟩, ⟨tw, th⟩, ori, bp, props, tilesets, layers⟩ := m
  simp only [Map.validB, Bool.and_eq_true] at hv
  obtain ⟨⟨hnd, hts⟩, hls⟩ := hv
  rw [List.all_eq_true] at hts hls
  simp only [Map.resolvedB, List.all_eq_true] at hres
  have hDU : dictUpdate [] (dictUpdate [] props) = props := by
    rw [dictUpdate_nil props (by simpa [nodupKeysB] using hnd)]
    exact dictUpdate_nil props (by simpa [nodupKeysB] using hnd)
  set mRec : Map :=
    ⟨(w, h), (tw, th), ori, bp, props, tilesets, layers⟩ with hmRec
  have hlay := mapFold_layers C hC resolver now mRec layers
    ⟨(w, h), (tw, th), ori, bp, props, tilesets, []⟩ rfl
    (tileSizeOfGid_eq_of_tilesets_eq _ _ rfl) hls
  unfold write_map
  cases hln : layers.mapM (layer_to_element C now mRec) with
  | error e =>
    rw [hln] at hlay
    simp [excBind_err] at hlay
  | ok lns =>
    rw [hln, excBind_ok] at hlay
    show read_map C resolver
      (Node.mk "map"
        [("version", AVal.s "1.0"), ("orientation", AVal.s ori),
          ("width", AVal.i (w : Int)), ("height", AVal.i (h : Int)),
          ("tilewidth", AVal.i (tw : Int)), ("tileheight", AVal.i (th : Int))]
        (append_properties props ++
          tilesets.mapIdx (fun i t => write_tileset t (firstGidOf tilesets i)) ++ lns)
        none) bp = .ok mRec
    unfold read_map
    simp only [Node.tag, Node.attrs, Node.children, popNat, popStr, popReq, popAttr,
      AVal.asNat, AVal.asStr, reduceIte, String.reduceEq, excBind_ok, excBind_err,
      excBind_pure, pure_eq_ok, Int.toNat_natCast, Int.natCast_nonneg, if_true,
      if_false, reduceCtorEq, ne_eq, not_false_eq_true, not_true_eq_false,
      Bool.false_eq_true, AVal.s.injEq, List.cons_ne_self]
    rw [List.foldlM_append, List.foldlM_append]
    have hfold1 : List.foldlM (mapChildStep C resolver)
        (⟨(w, h), (tw, th), ori, bp, [], [], []⟩ : Map) (append_properties props) =
        .ok ⟨(w, h), (tw, th), ori, bp, props, [], []⟩ := by
      by_cases hpr : props = []
      · subst hpr
        rfl
      · rw [append_properties_nonempty props hpr, List.foldlM_cons,
          mapChildStep_props, excBind_ok]
        show Except.ok _ = _
        rw [show dictUpdate ([] : PropMap) (dictUpdate [] props) = props from hDU]
    have harg : tilesets.mapIdx (fun i t => write_tileset t (firstGidOf tilesets i)) =
        tilesets.mapIdx (fun j t =>
          write_tileset t (firstGidOf (([] : List Tileset) ++ tilesets)
            ((List.length ([] : List Tileset)) + j))) := by
      have : (fun i t => write_tileset t (firstGidOf tilesets i)) =
          (fun j t => write_tileset t (firstGidOf (([] : List Tileset) ++ tilesets)
            ((List.length ([] : List Tileset)) + j))) := by
        funext i t
        simp
      rw [this]
    have hfold2 : List.foldlM (mapChildStep C resolver)
        (⟨(w, h), (tw, th), ori, bp, props, [], []⟩ : Map)
        (tilesets.mapIdx (fun i t => write_tileset t (firstGidOf tilesets i))) =
        .ok ⟨(w, h), (tw, th), ori, bp, props, tilesets, []⟩ := by
      rw [harg]
      have := mapFold_tilesets C resolver tilesets []
        (⟨(w, h), (tw, th), ori, bp, props, [], []⟩ : Map) rfl hts hres
      rw [this]
      simp
    rw [hfold1, excBind_ok, hfold2, excBind_ok, hlay]
    simp

/-! ## The claims -/


mutual

/-- Does the tree contain a node with the given tag? -/
def Node.containsTag (t : String) : Node → Bool
  | .mk tag _ children _ => decide (tag = t) || containsTagList t children

def containsTagList (t : String) : List Node → Bool
  | [] => false
  | n :: ns => Node.containsTag t n || containsTagList t ns

end

/-- All property bags of a layer are empty. -/
def Layer.emptyBags : Layer → Bool
  | .tiles l => decide (l.properties = [])
  | .objects l => decide (l.properties = [])

/-- All per-tile property bags of a tileset are empty. -/
def Tileset.emptyBags (t : Tileset) : Bool :=
  t.tile_properties.all (fun p => decide (p.2 = []))

/-- Every property bag of the document is empty: the document's own bag,
every layer's, and every tile's. -/
def Map.emptyBags (m : Map) : Bool :=
  decide (m.properties = []) && m.tilesets.all Tileset.emptyBags &&
    m.layers.all Layer.emptyBags

theorem containsTag_mk (t tag : String) (a : Attrs) (c : List Node)
    (x : Option String) :
    Node.containsTag t (.mk tag a c x) = (decide (tag = t) || containsTagList t c) := by
  rw [Node.containsTag]

theorem containsTagList_nil (t : String) : containsTagList t [] = false := by
  rw [containsTagList]

theorem containsTagList_cons (t : String) (n : Node) (ns : List Node) :
    containsTagList t (n :: ns) = (Node.containsTag t n || containsTagList t ns) := by
  rw [containsTagList]

theorem containsTagList_append (t : String) (l1 l2 : List Node) :
    containsTagList t (l1 ++ l2) =
      (containsTagList t l1 || containsTagList t l2) := by
  induction l1 with
  | nil => rw [List.nil_append, containsTagList_nil, Bool.false_or]
  | cons n ns ih =>
    rw [List.cons_append, containsTagList_cons, containsTagList_cons, ih,
      Bool.or_assoc]

theorem containsTagList_map_false {α : Type} (t : String) (f : α → Node)
    (xs : List α) (h : ∀ x ∈ xs, Node.containsTag t (f x) = false) :
    containsTagList t (xs.map f) = false := by
  induction xs with
  | nil => rw [List.map_nil, containsTagList_nil]
  | cons x rest ih =>
    rw [List.map_cons, containsTagList_cons, h x (by simp),
      ih (fun y hy => h y (by simp [hy])), Bool.or_self]

theorem mem_insertSortedTP (p q : Nat × PropMap) :
    ∀ l : List (Nat × PropMap), q ∈ insertSortedTP p l → q = p ∨ q ∈ l
  | [], h => by
    rw [insertSortedTP] at h
    simp only [List.mem_singleton] at h
    exact Or.inl h
  | r :: rest, h => by
    rw [insertSortedTP] at h
    by_cases hle : p.1 ≤ r.1
    · rw [if_pos hle] at h
      rcases List.mem_cons.mp h with h | h
      · exact Or.inl h
      · exact Or.inr h
    · rw [if_neg hle] at h
      rcases List.mem_cons.mp h with h | h
      · exact Or.inr (by simp [h])
      · rcases mem_insertSortedTP p q rest h with h | h
        · exact Or.inl h
        · exact Or.inr (by simp [h])

theorem mem_sortTileProps (q : Nat × PropMap) :
    ∀ l : List (Nat × PropMap), q ∈ sortTileProps l → q ∈ l
  | [], h => by simp [sortTileProps] at h
  | p :: rest, h => by
    unfold sortTileProps at h
    rw [List.foldr_cons] at h
    rcases mem_insertSortedTP p q _ h with h | h
    · simp [h]
    · exact List.mem_cons_of_mem p (mem_sortTileProps q rest h)

theorem noProps_write_image (img : Image) :
    Node.containsTag "properties" (write_image img) = false := by
  unfold write_image
  rw [containsTag_mk, containsTagList_nil]
  rfl

theorem noProps_write_tileset (t : Tileset) (fg : Nat)
    (h : Tileset.emptyBags t = true) :
    Node.containsTag "properties" (write_tileset t fg) = false := by
  unfold write_tileset
  cases hs : t.source with
  | some src =>
    rw [containsTag_mk, containsTagList_nil]
    rfl
  | none =>
    rw [containsTag_mk]
    have hfm : ((sortTileProps t.tile_properties).filterMap (fun p =>
        if p.2 ≠ [] then
          some (Node.mk "tile" [("id", AVal.i (p.1 : Int))]
            (append_properties p.2) none)
        else none)) = [] := by
      rw [List.filterMap_eq_nil_iff]
      intro p hp
      have hmem := mem_sortTileProps p t.tile_properties hp
      have hempty : p.2 = [] := by
        simp only [Tileset.emptyBags, List.all_eq_true, decide_eq_true_eq] at h
        exact h p hmem
      rw [if_neg (by simp [hempty])]
    rw [hfm, List.append_nil]
    cases hi : t.image with
    | none =>
      rw [containsTagList_nil]
      rfl
    | some img =>
      rw [containsTagList_cons, containsTagList_nil, noProps_write_image img]
      rfl

theorem noProps_tile_layer (C : ExtCodecs) (now : Nat) (sz : Nat × Nat)
    (l : TileLayer) (n : Node) (hp : l.properties = [])
    (h : tile_layer_to_element C now sz l = .ok n) :
    Node.containsTag "properties" n = false := by
  have hshape : ∃ a da tx, n = Node.mk "layer" a [Node.mk "data" da [] tx] none := by
    unfold tile_layer_to_element tile_layer_to_element_traced at h
    rw [hp] at h
    rcases hpk : packLE32 l.data with e | packed <;> rw [hpk] at h
    · simp at h
    · simp only [append_properties, reduceIte, List.nil_append] at h
      split at h
      · split at h
        · simp only [Except.ok.injEq] at h
          exact ⟨_, _, _, h.symm⟩
        · simp at h
      · split at h
        · split at h
          · simp only [Except.ok.injEq] at h
            exact ⟨_, _, _, h.symm⟩
          · simp at h
        · split at h
          · simp at h
          · split at h
            · simp only [Except.ok.injEq] at h
              exact ⟨_, _, _, h.symm⟩
            · simp at h
  obtain ⟨a, da, tx, rfl⟩ := hshape
  rw [containsTag_mk, containsTagList_cons, containsTag_mk, containsTagList_nil]
  decide

theorem noProps_object_layer (m : Map) (l : ObjectLayer) (hp : l.properties = []) :
    Node.containsTag "properties" (object_layer_to_element m l) = false := by
  unfold object_layer_to_element
  rw [hp, containsTag_mk]
  show (false || containsTagList "properties"
    (append_properties [] ++ l.objects.map (objectNode m))) = false
  rw [Bool.false_or,
    show append_properties [] = [] from rfl, List.nil_append,
    containsTagList_map_false "properties" (objectNode m) l.objects
      (fun o _ => by
        unfold objectNode
        rw [containsTag_mk, containsTagList_nil]
        rfl)]

theorem mapM_layer_mem (C : ExtCodecs) (now : Nat) (m : Map) :
    ∀ (ls : List Layer) (ns : List Node),
      ls.mapM (layer_to_element C now m) = .ok ns →
      ∀ n ∈ ns, ∃ l ∈ ls, layer_to_element C now m l = .ok n
  | [], ns, h => by
    intro n hn
    simp only [List.mapM_nil, pure_eq_ok, Except.ok.injEq] at h
    subst h
    simp at hn
  | l :: rest, ns, h => by
    intro n hn
    rw [List.mapM_cons] at h
    cases hl : layer_to_element C now m l with
    | error e => rw [hl] at h; simp [excBind_err] at h
    | ok nd =>
      rw [hl, excBind_ok] at h
      cases hr : rest.mapM (layer_to_element C now m) with
      | error e => rw [hr] at h; simp [excBind_err] at h
      | ok nds =>
        rw [hr, excBind_ok, pure_eq_ok] at h
        simp only [Except.ok.injEq] at h
        subst h
        rcases List.mem_cons.mp hn with hn | hn
        · exact ⟨l, by simp, hn ▸ hl⟩
        · obtain ⟨l2, hl2, he⟩ := mapM_layer_mem C now m rest nds hr n hn
          exact ⟨l2, by simp [hl2], he⟩

/-- C9: writing a document whose every property bag (document, layers,
tiles) is empty produces a tree with no `properties` node anywhere. -/
theorem c9_empty_bags_no_properties_node (C : ExtCodecs) (now : Nat)
    (m : Map) (n : Node) (hempty : Map.emptyBags m = true)
    (hw : write_map C now m = .ok n) :
    Node.containsTag "properties" n = false := by
  simp only [Map.emptyBags, Bool.and_eq_true, decide_eq_true_eq,
    List.all_eq_true] at hempty
  obtain ⟨⟨hprops, hts⟩, hls⟩ := hempty
  unfold write_map at hw
  cases hln : m.layers.mapM (layer_to_element C now m) with
  | error e => rw [hln] at hw; simp [excBind_err] at hw
  | ok lns =>
    rw [hln, excBind_ok, pure_eq_ok] at hw
    simp only [Except.ok.injEq] at hw
    subst hw
    rw [containsTag_mk, hprops,
      show append_properties [] = [] from rfl, List.nil_append,
      containsTagList_append]
    have hfold : ∀ ns : List Node,
        (∀ nd ∈ ns, Node.containsTag "properties" nd = false) →
        containsTagList "properties" ns = false := by
      intro ns hns
      induction ns with
      | nil => rw [containsTagList_nil]
      | cons x rest ih =>
        rw [containsTagList_cons, hns x (by simp),
          ih (fun y hy => hns y (by simp [hy])), Bool.or_self]
    have hlns : ∀ nd ∈ lns, Node.containsTag "properties" nd = false := by
        intro nd hnd
        obtain ⟨l, hl, he⟩ := mapM_layer_mem C now m m.layers lns hln nd hnd
        cases l with
        | tiles tl =>
          have hpe : tl.properties = [] := by
            have := hls _ hl
            simpa [Layer.emptyBags] using this
          exact noProps_tile_layer C now m.size tl nd hpe he
        | objects ol =>
          have hpe : ol.properties = [] := by
            have := hls _ hl
            simpa [Layer.emptyBags] using this
          have : nd = object_layer_to_element m ol := by
            simp only [layer_to_element, Except.ok.injEq] at he
            exact he.symm
          rw [this]
          exact noProps_object_layer m ol hpe
    have hts2 : containsTagList "properties"
        (m.tilesets.mapIdx (fun i t => write_tileset t (firstGidOf m.tilesets i))) =
        false := by
      refine hfold _ ?_
      intro nd hnd
      rw [List.mem_mapIdx] at hnd
      obtain ⟨i, hi, heq⟩ := hnd
      rw [← heq]
      exact noProps_write_tileset _ _ (hts _ (List.getElem_mem hi))
    rw [hts2, hfold lns hlns]
    rfl


/-- Fixture: a document whose every property bag is empty. -/
def docE : Map :=
  { size := (1, 1), tile_size := (16, 16), orientation := "orthogonal",
    base_path := none, properties := [],
    tilesets := [{ source := none, name := "t", tile_size := (16, 16),
                   margin := 0, spacing := 0,
                   image := some { source := "a.png", trans := none,
                                   size := (16, 16) },
                   tile_properties := [(0, [])] }],
    layers := [.tiles { name := "l", opacity := 1, visible := true,
                        data := [0], encoding := some (some "base64"),
                        compression := some (some "zlib"), mtime := none,
                        properties := [] }] }

/-- Fixture: the tree `write_map` produces for `docE`. -/
def nodeE : Node :=
  Node.mk "map"
    [("version", AVal.s "1.0"), ("orientation", AVal.s "orthogonal"),
      ("width", AVal.i 1), ("height", AVal.i 1), ("tilewidth", AVal.i 16),
      ("tileheight", AVal.i 16)]
    [Node.mk "tileset"
      [("name", AVal.s "t"), ("tileheight", AVal.i 16),
        ("tilewidth", AVal.i 16), ("firstgid", AVal.i 1)]
      [Node.mk "image"
        [("source", AVal.s "a.png"), ("height", AVal.i 16),
          ("width", AVal.i 16)] [] none]
      none,
      Node.mk "layer"
      [("name", AVal.s "l"), ("width", AVal.i 1), ("height", AVal.i 1)]
      [Node.mk "data"
        [("compression", AVal.s "zlib"), ("encoding", AVal.s "base64")] []
        (some "eJwAAAAA")]
      none]
    none

theorem c9_empty_bags_no_properties_node_witness :
    Map.emptyBags docE = true ∧ write_map refCodecs 0 docE = .ok nodeE ∧
      Node.containsTag "properties" nodeE = false :=
  ⟨by decide, by decide,
    c9_empty_bags_no_properties_node refCodecs 0 docE nodeE (by decide)
      (by decide)⟩


/-! ## Fixture nodes for feeding raw tile data to the read path -/

/-- A `data` child carrying base64-encoded raw bytes, no compression. -/
def dataNodeOf (b : List Nat) : Node :=
  .mk "data" [("encoding", .s "base64")] [] (some (b64encode b))

/-- A minimal `layer` element around `dataNodeOf`. -/
def tileLayerNodeOf (nm : String) (w h : Nat) (b : List Nat) : Node :=
  .mk "layer"
    [("name", .s nm), ("width", AVal.i (w : Int)), ("height", AVal.i (h : Int))]
    [dataNodeOf b] none

/-- The standard six `map` attributes, in the order `write_map` emits them. -/
def mapAttrsStd (w h tw th : Nat) (ori : String) : Attrs :=
  [("version", .s "1.0"), ("orientation", .s ori), ("width", AVal.i (w : Int)),
    ("height", AVal.i (h : Int)), ("tilewidth", AVal.i (tw : Int)),
    ("tileheight", AVal.i (th : Int))]

/-! ## Helper: reading a layer element around raw bytes -/

theorem tile_layer_read_raw (C : ExtCodecs) (nm : String) (w h : Nat)
    (b : List Nat) (hb : ∀ x ∈ b, x < 256) :
    tile_layer_from_element C (tileLayerNodeOf nm w h b) (w, h) =
      if b.length / 4 = w * h then
        .ok { name := nm, opacity := 1, visible := true,
              data := tileDataFromBytes b, encoding := some (some "base64"),
              compression := some none, mtime := none, properties := [] }
      else .error .dataLength := by
  unfold tile_layer_from_element tileLayerNodeOf
  simp only [Node.attrs, Node.children, Node.tag, popStr, popQD, popIntD, popNat,
    popReq, popAttr, AVal.asStr, AVal.asNat, AVal.asQ, AVal.asInt, reduceIte,
    String.reduceEq, excBind_ok, excBind_err, excBind_pure, pure_eq_ok,
    Int.toNat_natCast, Int.natCast_nonneg, reduceCtorEq, ne_eq,
    not_false_eq_true, not_true_eq_false, if_true, if_false,
    List.foldlM_cons, List.foldlM_nil, Prod.mk.injEq]
  rw [if_neg (by simp)]
  unfold tileLayerChildStep dataNodeOf
  simp only [Node.attrs, Node.children, Node.tag, Node.text, popReq, popAttr,
    reduceIte, String.reduceEq, excBind_ok, excBind_err, excBind_pure,
    pure_eq_ok, reduceCtorEq, ne_eq, not_false_eq_true, if_true, if_false,
    Bool.false_eq_true, b64decode_b64encode b hb]
  unfold setLayerData
  rw [tileDataFromBytes_length]
  by_cases hc : b.length / 4 = w * h
  · rw [if_pos hc, if_pos hc]
    rfl
  · rw [if_neg hc, if_neg hc]
    rfl


/-- C2: the read path accepts a decoded byte sequence exactly when the
number of complete 4-byte groups equals `width * height`: any length in
`[4wh, 4wh + 3]` succeeds (`zip` silently drops a trailing partial group),
and every other length fails with `DataLengthError` — not only lengths
different from exactly `4 * width * height` fail, as the spec has it. -/
theorem c2_decoded_length_window (C : ExtCodecs) (nm : String) (w h : Nat)
    (b : List Nat) (hb : ∀ x ∈ b, x < 256) :
    tile_layer_from_element C (tileLayerNodeOf nm w h b) (w, h) =
      if 4 * (w * h) ≤ b.length ∧ b.length < 4 * (w * h) + 4 then
        .ok { name := nm, opacity := 1, visible := true,
              data := tileDataFromBytes b, encoding := some (some "base64"),
              compression := some none, mtime := none, properties := [] }
      else .error .dataLength := by
  rw [tile_layer_read_raw C nm w h b hb]
  by_cases hc : b.length / 4 = w * h
  · rw [if_pos hc, if_pos (by omega)]
  · rw [if_neg hc, if_neg (by omega)]

theorem c2_decoded_length_window_witness :
    (∀ x ∈ ([5, 0, 0, 0] : List Nat), x < 256) ∧
      tile_layer_from_element refCodecs (tileLayerNodeOf "a" 1 1 [5, 0, 0, 0]) (1, 1) =
        (if 4 * (1 * 1) ≤ ([5, 0, 0, 0] : List Nat).length ∧
            ([5, 0, 0, 0] : List Nat).length < 4 * (1 * 1) + 4 then
          .ok { name := "a", opacity := 1, visible := true,
                data := tileDataFromBytes [5, 0, 0, 0],
                encoding := some (some "base64"), compression := some none,
                mtime := none, properties := [] }
        else .error .dataLength) :=
  ⟨by decide, c2_decoded_length_window refCodecs "a" 1 1 [5, 0, 0, 0] (by decide)⟩

/-- C2 counterexample: a 5-byte decoded sequence on a 1×1 map is not of
length `4 * width * height`, yet the read succeeds (with the trailing byte
silently dropped) instead of failing with `DataLengthError`. -/
theorem c2_five_bytes_counterexample :
    tile_layer_from_element refCodecs (tileLayerNodeOf "a" 1 1 [1, 0, 0, 0, 9]) (1, 1) =
        .ok { name := "a", opacity := 1, visible := true, data := [1],
              encoding := some (some "base64"), compression := some none,
              mtime := none, properties := [] } ∧
      ([1, 0, 0, 0, 9] : List Nat).length ≠ 4 * (1 * 1) := by
  refine ⟨?_, by decide⟩
  rw [tile_layer_read_raw refCodecs "a" 1 1 [1, 0, 0, 0, 9] (by decide),
    if_pos (by decide)]
  rw [show tileDataFromBytes [1, 0, 0, 0, 9] = [1] from by
    rw [tileDataFromBytes_cons, tileDataFromBytes_short [9] (by decide)]]

/-- C4: the serializer `to_rgb` does NOT left-zero-pad each byte: the
source right-pads with `str.ljust(2, '0')`.  `(255, 0, 0)` still maps to
`"ff0000"`, but `(1, 0, 0)` maps to `"100000"` instead of `"010000"`, and
reading that string back yields `(16, 0, 0)`. -/
theorem c4_to_rgb_right_pads :
    to_rgb (255, 0, 0) = "ff0000" ∧ to_rgb (1, 0, 0) = "100000" ∧
      to_rgb (1, 0, 0) ≠ "010000" ∧ from_rgb "100000" = .ok (16, 0, 0) := by
  refine ⟨?_, ?_, ?_, ?_⟩ <;> decide

/-- C5: each accepted cell is the unsigned 32-bit little-endian integer of
its 4-byte group: cell `i` of the slice/`zip` decode equals
`b[4i] + 256 b[4i+1] + 65536 b[4i+2] + 16777216 b[4i+3]`. -/
theorem c5_little_endian_cells (b : List Nat) (w h : Nat)
    (hlen : b.length = 4 * (w * h)) (i : Nat) (hi : i < w * h) :
    (tileDataFromBytes b).getD i 0 =
      b.getD (4 * i) 0 + 256 * b.getD (4 * i + 1) 0 +
        65536 * b.getD (4 * i + 2) 0 + 16777216 * b.getD (4 * i + 3) 0 :=
  tileDataFromBytes_getD b i (by omega)

theorem c5_little_endian_cells_witness :
    ([1, 0, 0, 0, 2, 1, 0, 0] : List Nat).length = 4 * (2 * 1) ∧ 1 < 2 * 1 ∧
      (tileDataFromBytes [1, 0, 0, 0, 2, 1, 0, 0]).getD 1 0 =
        ([1, 0, 0, 0, 2, 1, 0, 0] : List Nat).getD (4 * 1) 0 +
          256 * ([1, 0, 0, 0, 2, 1, 0, 0] : List Nat).getD (4 * 1 + 1) 0 +
          65536 * ([1, 0, 0, 0, 2, 1, 0, 0] : List Nat).getD (4 * 1 + 2) 0 +
          16777216 * ([1, 0, 0, 0, 2, 1, 0, 0] : List Nat).getD (4 * 1 + 3) 0 :=
  ⟨by decide, by decide,
    c5_little_endian_cells [1, 0, 0, 0, 2, 1, 0, 0] 2 1 (by decide) 1 (by decide)⟩

/-- C10: a `properties` node whose `property` children repeat a name reads
successfully, and the resulting mapping binds each name to the value of its
LAST occurrence in document order (`read_properties` assigns into a dict,
so later bindings overwrite earlier ones). -/
theorem c10_duplicate_name_last_wins (ps : PropMap) (k : String) :
    read_properties (Node.mk "properties" [] (ps.map propNode) none) =
        .ok (dictUpdate [] ps) ∧
      dictGet k (dictUpdate [] ps) = lastVal k ps := by
  refine ⟨read_properties_propNodes ps, ?_⟩
  rw [dictGet_dictUpdate]
  cases hlv : lastVal k ps with
  | none => simp [dictGet]
  | some v => simp


theorem throw_eq_error {α : Type} (e : Err) : (throw e : Except Err α) = .error e := rfl

/-- C3 (amended): writing is deterministic for the `none` and `zlib`
compression settings unconditionally, and for `gzip` provided the layer
carries an `mtime` attribute — the gzip container header embeds
`getattr(layer, 'mtime', None)`, which falls back to the wall clock. -/
theorem c3_write_deterministic (C : ExtCodecs) (now1 now2 : Nat) (sz : Nat × Nat)
    (l : TileLayer)
    (h : l.compression.getD (some "zlib") = some "gzip" → l.mtime ≠ none) :
    tile_layer_to_element C now1 sz l = tile_layer_to_element C now2 sz l := by
  unfold tile_layer_to_element tile_layer_to_element_traced
  cases hm : l.mtime with
  | some t => simp only [Option.getD_some]
  | none =>
    have hc : ¬ l.compression.getD (some "zlib") = some "gzip" :=
      fun hg => h hg hm
    cases hp : packLE32 l.data with
    | error e => rfl
    | ok packed =>
      simp only [Option.getD_none]
      rw [if_neg hc, if_neg hc]

/-- Fixture: a gzip-compressed layer carrying an explicit `mtime`. -/
def layerGzM : TileLayer :=
  { name := "g", opacity := 1, visible := true, data := [1],
    encoding := some (some "base64"), compression := some (some "gzip"),
    mtime := some 7, properties := [] }

theorem c3_write_deterministic_witness :
    ((layerGzM.compression.getD (some "zlib") = some "gzip" →
        layerGzM.mtime ≠ none)) ∧
      tile_layer_to_element refCodecs 0 (1, 1) layerGzM =
        tile_layer_to_element refCodecs 99 (1, 1) layerGzM :=
  ⟨by decide, c3_write_deterministic refCodecs 0 99 (1, 1) layerGzM (by decide)⟩

/-- Fixture: a gzip-compressed layer with no `mtime` attribute. -/
def layerGz : TileLayer :=
  { name := "g", opacity := 1, visible := true, data := [1],
    encoding := some (some "base64"), compression := some (some "gzip"),
    mtime := none, properties := [] }

/-- C3 counterexample: with gzip compression and no layer `mtime`, two
writes of the same layer under different wall clocks produce different
`data` text (the gzip header stores the timestamp). -/
theorem c3_gzip_mtime_counterexample :
    tile_layer_to_element refCodecs 0 (1, 1) layerGz ≠
      tile_layer_to_element refCodecs 1 (1, 1) layerGz := by decide

/-- C6: after the six declared attributes are consumed, any remaining `map`
attribute — whatever its name and value — makes the read fail with
`UnexpectedAttributeError`; with exactly the recognized attributes the read
succeeds. -/
theorem c6_strict_map_attributes (C : ExtCodecs)
    (res : String → Except Err Tileset) (bp : Option String)
    (w h tw th : Nat) (ori : String) (k : String) (v : AVal) :
    read_map C res (Node.mk "map" (mapAttrsStd w h tw th ori ++ [(k, v)]) [] none) bp =
        .error (.unexpectedAttr "map") ∧
      read_map C res (Node.mk "map" (mapAttrsStd w h tw th ori) [] none) bp =
        .ok { size := (w, h), tile_size := (tw, th), orientation := ori,
              base_path := bp, properties := [], tilesets := [], layers := [] } := by
  constructor <;>
  · unfold read_map mapAttrsStd
    simp only [Node.tag, Node.attrs, Node.children, popNat, popStr, popReq,
      popAttr, AVal.asNat, AVal.asStr, reduceIte, String.reduceEq, excBind_ok,
      excBind_err, excBind_pure, pure_eq_ok, throw_eq_error, Int.toNat_natCast,
      Int.natCast_nonneg, if_true, if_false, reduceCtorEq, ne_eq,
      not_false_eq_true, not_true_eq_false, Bool.false_eq_true, AVal.s.injEq,
      List.cons_append, List.nil_append, List.append_eq, List.foldlM_nil]

/-- C7: when the orchestrator reads a `tileset` child, the firstgid parsed
from the markup must equal `1` plus the sum of the tile counts of the
tilesets read so far; the child is accepted exactly when they agree, and
the read fails otherwise. -/
theorem c7_firstgid_consistency (C : ExtCodecs)
    (res : String → Except Err Tileset) (m : Map) (node : Node)
    (ts : Tileset) (rfg : Nat) (htag : node.tag = "tileset")
    (hread : read_tileset res node m.base_path = .ok (ts, rfg)) :
    mapChildStep C res m node =
      if firstGidOf (m.tilesets ++ [ts]) m.tilesets.length = rfg then
        .ok {m with tilesets := m.tilesets ++ [ts]}
      else .error .firstGidMismatch := by
  unfold mapChildStep
  rw [htag]
  have hlen : (m.tilesets ++ [ts]).length - 1 = m.tilesets.length := by simp
  simp only [reduceIte, String.reduceEq, hread, excBind_ok, hlen]
  by_cases hfg : firstGidOf (m.tilesets ++ [ts]) m.tilesets.length = rfg
  · rw [if_pos hfg, if_neg (fun hn => hn hfg)]
    simp [excBind_ok, pure, Except.pure]
  · rw [if_neg hfg, if_pos hfg]
    simp [excBind_err, throw_eq_error]

/-- Fixture: a small embedded tileset (two 16×16 tiles in a 32×16 image). -/
def tsW : Tileset :=
  { source := none, name := "t", tile_size := (16, 16), margin := 0,
    spacing := 0,
    image := some { source := "a.png", trans := none, size := (32, 16) },
    tile_properties := [] }

/-- Fixture: the empty document shell a read starts from. -/
def m0W : Map :=
  { size := (1, 1), tile_size := (16, 16), orientation := "orthogonal",
    base_path := none, properties := [], tilesets := [], layers := [] }

theorem c7_firstgid_consistency_witness :
    (write_tileset tsW 5).tag = "tileset" ∧
      read_tileset (fun _ => .error .pathErr) (write_tileset tsW 5) m0W.base_path =
        .ok (tsW, 5) ∧
      mapChildStep refCodecs (fun _ => .error .pathErr) m0W (write_tileset tsW 5) =
        (if firstGidOf (m0W.tilesets ++ [tsW]) m0W.tilesets.length = 5 then
          .ok {m0W with tilesets := m0W.tilesets ++ [tsW]}
        else .error .firstGidMismatch) :=
  ⟨by decide, by decide,
    c7_firstgid_consistency refCodecs (fun _ => .error .pathErr) m0W
      (write_tileset tsW 5) tsW 5 (by decide) (by decide)⟩

/-- C8 (amended): an unsupported compression value on the write path does
raise `UnsupportedCompressionError`, but only after `struct.pack` has
already run over the whole cell data — the trace of completed transforms is
`[pack]`, not `[]`. -/
theorem c8_error_after_pack (C : ExtCodecs) (now : Nat) (sz : Nat × Nat)
    (l : TileLayer) (hdata : ∀ v ∈ l.data, v < 4294967296) (s : String)
    (hs : l.compression.getD (some "zlib") = some s) (hne : s ≠ "")
    (hg : s ≠ "gzip") (hz : s ≠ "zlib") :
    tile_layer_to_element_traced C now sz l =
      ([Stage.pack], .error .unsupportedCompression) := by
  unfold tile_layer_to_element_traced
  cases hp : packLE32 l.data with
  | error e =>
    rw [packLE32_ok l.data hdata] at hp
    cases hp
  | ok packed =>
    simp only [hs, Option.getD_some]
    rw [if_neg (fun hcon => hg (by injection hcon)),
      if_neg (fun hcon => hz (by injection hcon)), if_pos hne]

/-- Fixture: a layer asking for an unsupported compression scheme. -/
def layerBadCmp : TileLayer :=
  { name := "b", opacity := 1, visible := true, data := [1],
    encoding := some (some "base64"), compression := some (some "lzma"),
    mtime := none, properties := [] }

theorem c8_error_after_pack_witness :
    (∀ v ∈ layerBadCmp.data, v < 4294967296) ∧
      layerBadCmp.compression.getD (some "zlib") = some "lzma" ∧
      tile_layer_to_element_traced refCodecs 0 (1, 1) layerBadCmp =
        ([Stage.pack], .error .unsupportedCompression) :=
  ⟨by decide, by decide,
    c8_error_after_pack refCodecs 0 (1, 1) layerBadCmp (by decide) "lzma"
      (by decide) (by decide) (by decide) (by decide)⟩

/-- C8 counterexample: on a concrete layer with compression `"lzma"` the
error is raised with the packing transform already completed (`[pack]`),
refuting "before any transform is attempted". -/
theorem c8_pack_trace_counterexample :
    tile_layer_to_element_traced refCodecs 0 (1, 1) layerBadCmp =
        ([Stage.pack], .error .unsupportedCompression) ∧
      ([Stage.pack] : List Stage) ≠ [] := by
  refine ⟨by decide, by decide⟩


/-! ## Fixtures and statement for the whole-document round trip -/

/-- Fixture: an embedded tileset with a transparency color and tile
properties. -/
def tsEmb : Tileset :=
  { source := none, name := "e", tile_size := (16, 16), margin := 0,
    spacing := 0,
    image := some { source := "a.png", trans := some (255, 0, 0),
                    size := (32, 16) },
    tile_properties := [(0, [("p", "q")])] }

/-- Fixture: an external tileset reference. -/
def tsExt : Tileset :=
  { source := some "ext.tsx", name := "x", tile_size := (8, 8), margin := 0,
    spacing := 0, image := none, tile_properties := [] }

/-- Fixture: the resolver serving the external tileset. -/
def resolverW : String → Except Err Tileset := fun p =>
  if p = "/maps/ext.tsx" then .ok {tsExt with source := none}
  else .error .pathErr

/-- Fixture: a document exercising properties, both tileset variants, the
three supported compression settings and an object layer. -/
def docW : Map :=
  { size := (2, 1), tile_size := (16, 16), orientation := "orthogonal",
    base_path := some "/maps", properties := [("k", "v")],
    tilesets := [tsEmb, tsExt],
    layers :=
      [.tiles { name := "lz", opacity := 1, visible := true, data := [0, 1],
                encoding := some (some "base64"),
                compression := some (some "zlib"), mtime := none,
                properties := [] },
        .tiles { name := "ln", opacity := 1, visible := true, data := [2, 3],
                 encoding := some (some "base64"), compression := some none,
                 mtime := none, properties := [] },
        .tiles { name := "lg", opacity := 1, visible := true, data := [4, 5],
                 encoding := some (some "base64"),
                 compression := some (some "gzip"), mtime := none,
                 properties := [] },
        .objects { name := "o", opacity := 1, visible := true,
                   objects := [{ pos := (1, 2), size := (16, 16), value := 1,
                                 name := some "obj", otype := none }],
                   properties := [] }] }

/-- C1 (amended): reading back a written document reproduces it for every
collaborator satisfying the codec contract, every resolver the document's
external tilesets resolve under, every wall clock and every document built
from valid field values — where validity additionally requires each
transparency-color byte to be 0 or ≥ 16 (one-digit-hex bytes are corrupted
by `to_rgb`'s right-padding, see C4). -/
theorem c1_document_roundtrip (C : ExtCodecs) (hC : ExtCodecsOk C)
    (resolver : String → Except Err Tileset) (now : Nat) (m : Map)
    (hv : m.validB = true) (hres : m.resolvedB resolver = true) :
    (do
      let n ← write_map C now m
      read_map C resolver n m.base_path) = .ok m :=
  read_map_write_map C hC resolver now m hv hres

theorem c1_document_roundtrip_witness :
    docW.validB = true ∧ docW.resolvedB resolverW = true ∧
      (do
        let n ← write_map refCodecs 5 docW
        read_map refCodecs resolverW n docW.base_path) = .ok docW :=
  ⟨by decide, by decide,
    c1_document_roundtrip refCodecs refCodecs_ok resolverW 5 docW (by decide)
      (by decide)⟩

/-- Fixture: a document whose transparency color has a one-digit-hex byte. -/
def docBad : Map :=
  { size := (1, 1), tile_size := (16, 16), orientation := "orthogonal",
    base_path := none, properties := [],
    tilesets := [{ source := none, name := "e", tile_size := (16, 16),
                   margin := 0, spacing := 0,
                   image := some { source := "a.png", trans := some (1, 0, 0),
                                   size := (32, 16) },
                   tile_properties := [] }],
    layers := [] }

/-- C1 counterexample: the round trip is NOT the identity on every document
built from valid field values — a transparency color with a byte in 1..15
(here `(1, 0, 0)`) comes back altered (as `(16, 0, 0)`), because `to_rgb`
right-pads its hex form. -/
theorem c1_trans_color_counterexample :
    (do
      let n ← write_map refCodecs 0 docBad
      read_map refCodecs resolverW n docBad.base_path) =
        .ok {docBad with
              tilesets := [{ source := none, name := "e",
                             tile_size := (16, 16), margin := 0, spacing := 0,
                             image := some { source := "a.png",
                                             trans := some (16, 0, 0),
                                             size := (32, 16) },
                             tile_properties := [] }]} ∧
      ({ source := "a.png", trans := some (16, 0, 0),
         size := (32, 16) } : Image) ≠
        { source := "a.png", trans := some (1, 0, 0), size := (32, 16) } := by
  refine ⟨by decide, by decide⟩

end Tmx
